import Mathlib

/-!
# Hostel management backend: verified model of the reconciliation core

A shallow embedding of the billing/allocation logic of the hostel management
backend (room controller, student controller, fee controller).  Documents of
the Mongo collections become Lean structures, controller handlers become pure
functions over an explicit database state, and JS numbers are modelled as
exact rationals.  Dates are modelled as integer milliseconds since the epoch.

Conventions:
* `DB` carries the four collections (rooms, students, fees, ledger entries).
* Handlers return `Except String ...`; an `error` models a 4xx/5xx response
  issued before the corresponding writes, with the message of the source.
* JS truthiness on numbers (`x || y`) is modelled as `if x = 0 then y else x`
  (the values in play are non-negative amounts, never NaN).
* JS `string.includes` / `/pat/i` regex tests are modelled by case-insensitive
  substring search on character lists (`containsIC`).
-/

/-- Case conversion of a string to a character list, lower case. -/
def lowerChars (s : String) : List Char := s.data.map Char.toLower

/-- Case-insensitive string equality, as in `a.toLowerCase() === b.toLowerCase()`. -/
def strEqIC (a b : String) : Bool := lowerChars a == lowerChars b

/-- `listStartsWith needle hay`: `needle` is a prefix of `hay`. -/
def listStartsWith : List Char → List Char → Bool
  | [], _ => true
  | _ :: _, [] => false
  | a :: as, b :: bs => a == b && listStartsWith as bs

/-- `listHasSub needle hay`: `needle` occurs as a contiguous sublist of `hay`. -/
def listHasSub (needle : List Char) : List Char → Bool
  | [] => listStartsWith needle []
  | c :: t => listStartsWith needle (c :: t) || listHasSub needle t

/-- Case-insensitive substring test: models `hay.toLowerCase().includes(needle)`
and the `/needle/i` regex tests of the source. -/
def containsIC (hay needle : String) : Bool :=
  listHasSub (lowerChars needle) (lowerChars hay)

/-- JS `a || b` on numbers (for non-NaN values): `a` when non-zero, else `b`. -/
def jsOr (a b : ℚ) : ℚ := if a = 0 then b else a

/-- Milliseconds in a day, the divisor used by the source for day arithmetic. -/
def msPerDay : Int := 86400000

/-- `Math.ceil(a / b)` for integers with `b > 0`, as used on date differences. -/
def ceilDiv (a b : Int) : Int := -((-a).ediv b)

/-- One bed of a room document (`Room.beds[i]`). -/
structure Bed where
  id : Nat
  bedLabel : String
  bedNumber : String
  isOccupied : Bool
  studentId : Option Nat
deriving DecidableEq

/-- A room document (fields of `models/Room.js` used by the controllers).
`rentPerMonthTable` models the `rentPerMonth` object keyed by package type. -/
structure Room where
  id : Nat
  roomNo : String
  capacity : Nat
  occupied : Nat
  status : String
  type : String
  students : List Nat
  beds : List Bed
  rentPerMonthTable : List (String × ℚ)
  rent : ℚ
  rentFor5Months : ℚ
  messChargePerMonth : ℚ
deriving DecidableEq

/-- A student document (fields of `models/Student.js` used by the controllers). -/
structure Student where
  id : Nat
  roomNo : Option Nat
  status : String
  enrollmentDate : Option Int
  allocationDate : Option Int
  admissionMonths : Option Nat
  hasPendingFees : Bool
  totalPendingAmount : ℚ
deriving DecidableEq

/-- A fee document (fields of `models/Fee.js` used by the controllers). -/
structure Fee where
  id : Nat
  student : Option Nat
  feeType : String
  amount : ℚ
  dueDate : Int
  status : String
  paymentMethod : Option String
  transactionId : Option String
  paidDate : Option Int
  packageType : Option String
  checkInDate : Option Int
  depositAmount : ℚ
  rentAmount : ℚ
  messAmount : ℚ
  youstelAmount : ℚ
  hufAmount : ℚ
  bedLabel : Option String
  roomNumber : Option String
  roomType : Option String
  source : Option String
  createdAt : Int
  checkOutDate : Option Int
  refundAmount : ℚ
  paidAmount : ℚ
  remainingBalance : ℚ
  remarks : String
deriving DecidableEq

/-- A manual ledger entry document (`models/LedgerEntry.js`). -/
structure LedgerEntry where
  id : Nat
  student : Nat
  date : Int
  type : String
  description : String
  account : String
  amount : ℚ
  voucher : Option String
  paymentMethod : String
deriving DecidableEq

/-- The persistent state: the four collections of the document store. -/
structure DB where
  rooms : List Room
  students : List Student
  fees : List Fee
  ledger : List LedgerEntry
deriving DecidableEq

/-- `Room.findById`. -/
def findRoom (db : DB) (rid : Nat) : Option Room := db.rooms.find? (fun r => r.id = rid)

/-- `Student.findById`. -/
def findStudent (db : DB) (sid : Nat) : Option Student :=
  db.students.find? (fun s => s.id = sid)

/-- `room.save()`: replace the room document with the given id. -/
def saveRoom (db : DB) (r : Room) : DB :=
  { db with rooms := db.rooms.map (fun x => if x.id = r.id then r else x) }

/-- `student.save()`: replace the student document with the given id. -/
def saveStudent (db : DB) (s : Student) : DB :=
  { db with students := db.students.map (fun x => if x.id = s.id then s else x) }

/-- `fee.save()`: replace the fee document with the given id. -/
def saveFee (db : DB) (f : Fee) : DB :=
  { db with fees := db.fees.map (fun x => if x.id = f.id then f else x) }

/-- `Fee.create`: append a new fee document. -/
def insertFee (db : DB) (f : Fee) : DB := { db with fees := db.fees ++ [f] }

/-- `LedgerEntry.create` / `insertMany`: append ledger entries. -/
def insertLedger (db : DB) (es : List LedgerEntry) : DB :=
  { db with ledger := db.ledger ++ es }

/-- `LedgerEntry.deleteMany -- student: sid`. -/
def deleteLedgerOfStudent (db : DB) (sid : Nat) : DB :=
  { db with ledger := db.ledger.filter (fun e => e.student ≠ sid) }

/-! ## Allocation engine (`controllers/roomController.js`) -/

/-- Number of beds currently flagged occupied: `beds.filter(b => b.isOccupied).length`. -/
def occupiedCount (beds : List Bed) : Nat :=
  (beds.filter (fun b => b.isOccupied)).length

/-- Free every bed held by `sid`:
`beds.map(b => b.studentId === sid ? {b, isOccupied:false, studentId:null} : b)`. -/
def clearStudentBeds (sid : Nat) (beds : List Bed) : List Bed :=
  beds.map (fun b =>
    if b.studentId = some sid then { b with isOccupied := false, studentId := none } else b)

/-- Bed-matching predicate of `allocateRoom` (lines 639-645): label or bed number
case-insensitively, or the bed document id, and the bed must be free. -/
def bedAvailForQuery (q : String) (b : Bed) : Bool :=
  (strEqIC b.bedLabel q || strEqIC b.bedNumber q || toString b.id == q) && !b.isOccupied

/-- Bed-matching predicate of `shiftRoom` / `payFee`: exact label match, bed free. -/
def bedAvailForLabel (q : String) (b : Bed) : Bool := b.bedLabel == q && !b.isOccupied

/-- Mark the first bed satisfying `p` as occupied by `sid` (the source mutates the
bed object returned by `beds.find(p)`). -/
def assignFirstBed (sid : Nat) (p : Bed → Bool) : List Bed → List Bed
  | [] => []
  | b :: rest =>
      if p b then { b with isOccupied := true, studentId := some sid } :: rest
      else b :: assignFirstBed sid p rest

/-- The previous-room release step of `allocateRoom` (lines 582-609): remove the
student from the list, clear their beds, recompute
`occupied = max(occupiedBedCount, students.length)` and the status. -/
def freeForAllocate (sid : Nat) (r : Room) : Room :=
  let students' := r.students.filter (fun x => x ≠ sid)
  let beds' := clearStudentBeds sid r.beds
  let occ := max (occupiedCount beds') students'.length
  let status' :=
    if occ = 0 then "available"
    else if occ < r.capacity then (if r.status = "maintenance" then "maintenance" else "available")
    else "occupied"
  { r with students := students', beds := beds', occupied := occ, status := status' }

/-- The release step of `deallocateRoom` (lines 715-735) and of `shiftRoom`
(lines 924-942): like `freeForAllocate` but `occupied = max(0, students.length)`
and the status demotion only rewrites an `occupied` status. -/
def freeForDeallocate (sid : Nat) (r : Room) : Room :=
  let students' := r.students.filter (fun x => x ≠ sid)
  let beds' := clearStudentBeds sid r.beds
  let occ := students'.length
  let status' :=
    if occ = 0 then "available"
    else if occ < r.capacity then (if r.status = "occupied" then "available" else r.status)
    else r.status
  { r with students := students', beds := beds', occupied := occ, status := status' }

/-- The assignment step shared by `allocateRoom` (lines 662-677), `shiftRoom`
(lines 947-963) and the opportunistic allocation of `payFee`: append the student
to the list if absent, `occupied = max(occupied, students.length)`, occupy the
first bed satisfying `p`. -/
def occupyBed (sid : Nat) (p : Bed → Bool) (r : Room) : Room :=
  let students' := if sid ∈ r.students then r.students else r.students ++ [sid]
  let occ := max r.occupied students'.length
  let beds' := assignFirstBed sid p r.beds
  { r with students := students', occupied := occ, beds := beds' }

/-- `POST /api/rooms/:id/allocate` (`allocateRoom`, lines 542-690), success value
is the updated database and the label of the assigned bed.  A student who
already holds a room is first released from it (that release is saved before
any further check and is not rolled back on failure). -/
def allocateRoom (db : DB) (roomId sid : Nat) (bedLabel : String) (now : Int) :
    Except String (DB × String) :=
  if bedLabel = "" then .error "Missing required fields: bedLabel"
  else
    match findRoom db roomId with
    | none => .error "Room not found"
    | some room₀ =>
      match findStudent db sid with
      | none => .error "Student not found"
      | some student =>
        -- free the previous bed when the student is already allocated
        let freed : DB × Room :=
          match student.roomNo with
          | none => (db, room₀)
          | some prevId =>
            match findRoom db prevId with
            | none => (db, room₀)
            | some prev =>
              let prevFreed := freeForAllocate sid prev
              (saveRoom db prevFreed, if prev.id = roomId then prevFreed else room₀)
        -- capacity check, skipped when reallocating inside the same room
        if freed.2.occupied ≥ freed.2.capacity ∧
            (student.roomNo = none ∨ student.roomNo ≠ some roomId) then
          .error "Room is full"
        else
          match freed.2.beds.find? (bedAvailForQuery bedLabel) with
          | none => .error "Bed is not available"
          | some bed =>
            let room₂ := occupyBed sid (bedAvailForQuery bedLabel) freed.2
            let room₃ :=
              if room₂.occupied ≥ room₂.capacity then { room₂ with status := "occupied" }
              else room₂
            let student' := { student with roomNo := some roomId, allocationDate := some now }
            .ok (saveStudent (saveRoom freed.1 room₃) student', bed.bedLabel)

/-- `POST /api/rooms/:id/deallocate` (`deallocateRoom`, lines 695-752). -/
def deallocateRoom (db : DB) (roomId sid : Nat) : Except String DB :=
  match findRoom db roomId with
  | none => .error "Room not found"
  | some room =>
    match findStudent db sid with
    | none => .error "Student not found"
    | some student =>
      let room' := freeForDeallocate sid room
      let student' := { student with roomNo := none, allocationDate := none }
      .ok (saveStudent (saveRoom db room') student')

/-- `POST /api/rooms/shift` (`shiftRoom`, lines 789-1108), restricted to its room
and student mutations.  The billing side effects (shift marker ledger entry,
rent/mess adjustment entries and the optional adjustment fee, lines 970-1071)
touch neither rooms nor the student document and are omitted here; no claim
refers to them. -/
def shiftRoom (db : DB) (sid newRoomId : Nat) (bedLabel : String) (now : Int) :
    Except String DB :=
  if bedLabel = "" then .error "Missing required fields: bedLabel"
  else if !(["A", "B", "C", "D"].contains (String.mk (bedLabel.data.map Char.toUpper))) then
    .error "Invalid bed label"
  else
    match findStudent db sid with
    | none => .error "Student not found"
    | some student =>
      match student.roomNo with
      | none => .error "Student does not have a room allocated"
      | some oldRoomId =>
        match findRoom db oldRoomId with
        | none => .error "Current room not found"
        | some oldRoom =>
          match findRoom db newRoomId with
          | none => .error "New room not found"
          | some newRoom =>
            if newRoom.occupied ≥ newRoom.capacity then .error "New room is full"
            else if (newRoom.beds.find? (bedAvailForLabel bedLabel)).isNone then
              .error "Bed is not available"
            else if oldRoomId = newRoomId then .error "Student is already in this room"
            else
              let db₁ := saveRoom db (freeForDeallocate sid oldRoom)
              let newRoom₁ := occupyBed sid (bedAvailForLabel bedLabel) newRoom
              let newRoom₂ :=
                if newRoom₁.occupied ≥ newRoom₁.capacity then
                  { newRoom₁ with status := "occupied" }
                else if 0 < newRoom₁.occupied then
                  { newRoom₁ with
                    status := if newRoom₁.status = "maintenance" then "maintenance"
                              else "available" }
                else newRoom₁
              let student' := { student with roomNo := some newRoomId
                                             allocationDate := some now }
              .ok (saveStudent (saveRoom db₁ newRoom₂) student')

/-! ## Billing engine: package generation (`controllers/studentController.js`) -/

/-- `PACKAGE_MONTHS` lookup (lines 6-12). -/
def packageMonthsLookup (pt : String) : Option Nat :=
  if pt = "5months" then some 5
  else if pt = "4months" then some 4
  else if pt = "3months" then some 3
  else if pt = "2months" then some 2
  else if pt = "1month" then some 1
  else none

/-- `SECURITY_DEPOSIT_AMOUNT` (line 14). -/
def securityDepositAmount : ℚ := 10000

/-- `getRentPerPackage` (lines 16-23):
`(room.rentPerMonth && room.rentPerMonth[pt]) || room.rent || (room.rentFor5Months ? room.rentFor5Months/5 : 0)`. -/
def getRentPerPackage (room : Room) (pt : String) : ℚ :=
  jsOr ((room.rentPerMonthTable.lookup pt).getD 0)
    (jsOr room.rent (if room.rentFor5Months = 0 then 0 else room.rentFor5Months / 5))

/-- Auto-generated fees of a student: `Fee.find -- student, source: checklist_auto`. -/
def autoFeesOf (fees : List Fee) (sid : Nat) : List Fee :=
  fees.filter (fun f => f.student = some sid && f.source = some "checklist_auto")

/-- `hasPaidDeposit` (lines 2468-2473): some prior auto fee has a positive deposit
component and status paid or partial (the inner
`youstelAmount >= depositAmount || depositAmount > 0` disjunction of the source
is kept verbatim; it is vacuous under `depositAmount > 0`). -/
def hasPaidDeposit (fees : List Fee) (sid : Nat) : Bool :=
  (autoFeesOf fees sid).any (fun f =>
    f.depositAmount > 0 &&
      ((f.status = "paid" || f.status = "partial") &&
        (f.youstelAmount ≥ f.depositAmount || f.depositAmount > 0)))

/-- The deposit-tagged manual entries of lines 2477-2485: Youstel account, type
Payment, description matching `/deposit/i` (the `component` field of the query
does not exist in the LedgerEntry schema, so only the description can match). -/
def depositTaggedEntries (ledger : List LedgerEntry) (sid : Nat) : List LedgerEntry :=
  ledger.filter (fun e =>
    e.student = sid && e.account = "Youstel" && e.type = "Payment" &&
      containsIC e.description "deposit")

/-- Refund classification of a deposit-tagged entry (lines 2492-2493). -/
def isRefundEntry (e : LedgerEntry) : Bool :=
  containsIC e.description "refund" || containsIC e.description "mark inactive"

/-- `netDepositPaid` (lines 2488-2501): payments minus refunds, floored at zero. -/
def netDepositPaid (ledger : List LedgerEntry) (sid : Nat) : ℚ :=
  let es := depositTaggedEntries ledger sid
  let paid := ((es.filter (fun e => !isRefundEntry e)).map (fun e => e.amount)).sum
  let refunded := ((es.filter (fun e => isRefundEntry e)).map (fun e => e.amount)).sum
  max 0 (paid - refunded)

/-- `hasDepositPayment` (line 2502): net deposit payments reach 50% of the
standard deposit. -/
def hasDepositPayment (ledger : List LedgerEntry) (sid : Nat) : Bool :=
  netDepositPaid ledger sid ≥ securityDepositAmount * (1 / 2)

/-- Deposit component charged by `autoCreateChecklistFee` (lines 2461-2514). -/
def depositCharge (fees : List Fee) (ledger : List LedgerEntry) (sid : Nat) : ℚ :=
  if !hasPaidDeposit fees sid && !hasDepositPayment ledger sid then securityDepositAmount
  else 0

/-- Statuses counted as completed by the resume detection (lines 2537-2542). -/
def isCompletedFeeStatus (st : String) : Bool :=
  st = "paid" || st = "partial" || st = "checked_out" || st = "refunded"

/-- Resume detection for the dueDate default (lines 2535-2543): the student has
prior auto fees and every one of them has a completed status. -/
def isResumeScenario (fees : List Fee) (sid : Nat) : Bool :=
  let old := autoFeesOf fees sid
  !old.isEmpty && old.all (fun f => isCompletedFeeStatus f.status)

/-- The dueDate default of `autoCreateChecklistFee` (lines 2525-2558) when the
request carries no dueDate: today for a resume, else the enrollment date, else
today. -/
def defaultDueDate (fees : List Fee) (sid : Nat) (enrollment : Option Int) (now : Int) : Int :=
  if isResumeScenario fees sid then now
  else match enrollment with
    | some d => d
    | none => now

/-- One collected-amount plan of `req.body.collectionPlan` (lines 2891-2896). -/
structure CollectPart where
  collect : Bool
  amount : ℚ
  date : Option Int
  voucher : Option String
  mode : Option String
deriving DecidableEq

/-- The collection plan: amounts declared as collected at generation time. -/
structure CollectionPlan where
  hostel : CollectPart
  mess : CollectPart
  deposit : CollectPart
deriving DecidableEq

/-- An empty collection part (nothing collected). -/
def noCollect : CollectPart :=
  { collect := false, amount := 0, date := none, voucher := none, mode := none }

/-- Request arguments of `autoCreateChecklistFee`. -/
structure GenArgs where
  packageType : String
  dueDate : Option Int
  plan : CollectionPlan
deriving DecidableEq

/-- The collected amount of one plan part (lines 2894-2896):
`plan.collectX ? Number(plan.xAmount || 0) : 0`. -/
def collectedAmt (p : CollectPart) : ℚ := if p.collect then p.amount else 0

/-- Ledger entry for a collected amount (lines 2910-2955). -/
def mkCollectionEntry (sid : Nat) (feeId : Nat) (part : CollectPart) (dueDate : Int)
    (comp account tag defaultMode : String) (eid : Nat) : LedgerEntry :=
  { id := eid
    student := sid
    date := part.date.getD dueDate
    type := "Payment"
    description := comp ++ " Payment - Package - GV: " ++ (part.voucher.getD (tag ++ toString feeId))
    account := account
    amount := collectedAmt part
    voucher := some (part.voucher.getD (tag ++ toString feeId))
    paymentMethod := part.mode.getD defaultMode }

/-- The collection-plan ledger entries created after the package fee
(lines 2907-2962): one entry per component with a positive collected amount;
rent and deposit go to Youstel, mess to HUF. -/
def collectionEntries (sid feeId : Nat) (plan : CollectionPlan) (dueDate : Int)
    (nextId : Nat) : List LedgerEntry :=
  (if collectedAmt plan.hostel > 0 then
    [mkCollectionEntry sid feeId plan.hostel dueDate "Hostel (Youstel)" "Youstel"
      "GV-Hostel-" "online" nextId]
  else []) ++
  (if collectedAmt plan.mess > 0 then
    [mkCollectionEntry sid feeId plan.mess dueDate "Mess (HUF)" "HUF"
      "GV-Mess-" "online" (nextId + 1)]
  else []) ++
  (if collectedAmt plan.deposit > 0 then
    [mkCollectionEntry sid feeId plan.deposit dueDate "Deposit (Youstel)" "Youstel"
      "GV-Deposit-" "cash" (nextId + 2)]
  else [])

/-- Bed label snapshot stored on the package fee (lines 2851-2859): the label of
the bed the student holds in their current room. -/
def studentBedLabel (room : Room) (sid : Nat) : Option String :=
  (room.beds.find? (fun b => b.studentId = some sid)).map (fun b => b.bedLabel)

/-- `updateStudentPendingFees` (`feeController`, lines 954-987): recompute the
cached pending-fee summary of a student from the pending/overdue fees. -/
def updatePendingFees (db : DB) (sid : Nat) : DB :=
  let pending := db.fees.filter (fun f =>
    f.student = some sid && (f.status = "pending" || f.status = "overdue"))
  match findStudent db sid with
  | none => db
  | some st =>
      saveStudent db
        { st with
          hasPendingFees := !pending.isEmpty
          totalPendingAmount := (pending.map (fun f => f.amount)).sum }

/-- `POST /api/students/:id/checklist/fees` (`autoCreateChecklistFee`,
lines 2406-3095), success path after the advisory-lock gate.  `feeId` and
`entryId` model the fresh document ids handed out by the store; `now` is the
current time.  The duplicate-creation layers 3-5 of the source are disabled
(an `if (false && ...)` and two commented blocks) and therefore absent.  The
`admissionUpToDate` recomputation delegates to `utils/dateCalculator`, which
touches no collection read by any claim and is omitted. -/
def autoCreateChecklistFee (db : DB) (sid : Nat) (args : GenArgs) (now : Int)
    (feeId entryId : Nat) : Except String (DB × Fee) :=
  match findStudent db sid with
  | none => .error "Student not found"
  | some student =>
    match student.roomNo with
    | none => .error "Assign a room to the student before generating fees."
    | some roomId =>
      match findRoom db roomId with
      | none => .error "Assign a room to the student before generating fees."
      | some room =>
        let months : Nat := (packageMonthsLookup args.packageType).getD 1
        let rentPerMonth := getRentPerPackage room args.packageType
        let messPerMonth := jsOr room.messChargePerMonth 3000
        let depositAmount := depositCharge db.fees db.ledger sid
        if rentPerMonth ≤ 0 ∨ messPerMonth ≤ 0 then
          .error "Calculated fee amount is zero. Please verify room pricing."
        else
          let dueDateValue :=
            match args.dueDate with
            | some d => d
            | none => defaultDueDate db.fees sid student.enrollmentDate now
          -- backfill enrollmentDate when unset (lines 2561-2571)
          let db₁ :=
            if student.enrollmentDate = none then
              saveStudent db { student with enrollmentDate := some dueDateValue }
            else db
          -- orphaned-ledger cleanup (lines 2833-2843)
          let db₂ :=
            if !(db₁.ledger.filter (fun e => e.student = sid)).isEmpty ∧
                (autoFeesOf db₁.fees sid).isEmpty then
              deleteLedgerOfStudent db₁ sid
            else db₁
          let totalRentAmount := rentPerMonth * months
          let totalMessAmount := messPerMonth * months
          let totalAmount := totalRentAmount + totalMessAmount + depositAmount
          let packageFee : Fee :=
            { id := feeId
              student := some sid
              feeType := "hostel"
              amount := totalAmount
              dueDate := dueDateValue
              status := "pending"
              paymentMethod := none
              transactionId := none
              paidDate := none
              packageType := some args.packageType
              checkInDate := none
              depositAmount := depositAmount
              rentAmount := totalRentAmount
              messAmount := totalMessAmount
              youstelAmount := totalRentAmount + depositAmount
              hufAmount := totalMessAmount
              bedLabel := studentBedLabel room sid
              roomNumber := some room.roomNo
              roomType := some room.type
              source := some "checklist_auto"
              createdAt := now
              checkOutDate := none
              refundAmount := 0
              paidAmount := 0
              remainingBalance := 0
              remarks := "Package Fee - Auto-generated from Post Approval Checklist" }
          let db₃ := insertFee db₂ packageFee
          let db₄ := insertLedger db₃ (collectionEntries sid feeId args.plan dueDateValue entryId)
          -- pending-fee cache recompute (lines 2980-3063), admissionMonths update included
          let db₅ :=
            match findStudent db₄ sid with
            | none => db₄
            | some st =>
                let pending := db₄.fees.filter (fun f =>
                  f.student = some sid && (f.status = "pending" || f.status = "overdue"))
                saveStudent db₄
                  { st with
                    hasPendingFees := !pending.isEmpty
                    totalPendingAmount := (pending.map (fun f => f.amount)).sum
                    admissionMonths := some months }
          .ok (db₅, packageFee)

/-! ### Advisory lock of package generation (lines 2404-2428 and 3088-3094) -/

/-- Lock TTL: a younger lock rejects the request (line 2415). -/
def lockWindowMs : Int := 10000

/-- Cooldown before the lock is released after completion (line 3093). -/
def lockReleaseDelayMs : Int := 2000

/-- The in-memory `feeCreationLocks` map, student id to lock timestamp. -/
abbrev LockMap : Type := List (Nat × Int)

/-- `feeCreationLocks.set(sid, now)` (after deleting any stale entry). -/
def setLock (locks : LockMap) (sid : Nat) (now : Int) : LockMap :=
  (sid, now) :: List.filter (fun e => e.1 ≠ sid) locks

/-- The lock gate at the top of `autoCreateChecklistFee` (lines 2409-2428):
`none` models the 429 duplicate-rejection, `some locks` the updated map when
the request may proceed. -/
def lockGate (locks : LockMap) (sid : Nat) (now : Int) : Option LockMap :=
  match List.lookup sid locks with
  | some t => if now - t < lockWindowMs then none else some (setLock locks sid now)
  | none => some (setLock locks sid now)

/-- Outcome of a locked `autoCreateChecklistFee` request: the database and lock
map afterwards, the handler result, and the time at which the `finally` block
schedules the lock release (`none` on the 429 path, which returns before the
`try` block). -/
structure LockedGenOutcome where
  db : DB
  locks : LockMap
  result : Except String (DB × Fee)
  releaseAt : Option Int

/-- `autoCreateChecklistFee` including its advisory-lock protocol. -/
def autoCreateWithLock (locks : LockMap) (db : DB) (sid : Nat) (args : GenArgs)
    (now : Int) (feeId entryId : Nat) : LockedGenOutcome :=
  match lockGate locks sid now with
  | none =>
      { db := db, locks := locks
        result := .error "Fee creation already in progress. Please wait...",
        releaseAt := none }
  | some locks' =>
      match autoCreateChecklistFee db sid args now feeId entryId with
      | .ok (db', fee) =>
          { db := db', locks := locks', result := .ok (db', fee)
            releaseAt := some (now + lockReleaseDelayMs) }
      | .error e =>
          { db := db, locks := locks', result := .error e
            releaseAt := some (now + lockReleaseDelayMs) }

/-! ## Billing engine: payment and checkout (`controllers/feeController.js`) -/

/-- Valid payment methods of `payFee` (line 475). -/
def validPaymentMethods : List String :=
  ["cash", "bank_transfer", "upi", "card", "online", "cheque"]

/-- `PUT /api/fees/:id/pay` (`payFee`, lines 454-563).  The handler result is
paired with the database because the fee save happens before the later student
lookup: a failure there still leaves the fee modified. -/
def payFee (db : DB) (feeId : Nat) (paymentMethod transactionId : String) (now : Int) :
    DB × Except String Fee :=
  if paymentMethod = "" ∨ transactionId = "" then
    (db, .error "Missing required fields")
  else if !(validPaymentMethods.contains (String.mk (paymentMethod.data.map Char.toLower))) then
    (db, .error "Invalid payment method")
  else
    match db.fees.find? (fun f => f.id = feeId) with
    | none => (db, .error "Fee not found")
    | some fee =>
        match fee.student with
        | none => (db, .error "Fee is not associated with any student. Please contact administrator.")
        | some sid =>
            let fee' := { fee with
              status := "paid", paidDate := some now,
              paymentMethod := some paymentMethod, transactionId := some transactionId }
            let db₁ := saveFee db fee'
            -- opportunistic bed allocation (lines 511-550)
            let db₂ :=
              if fee.feeType = "hostel" ∧ fee.bedLabel.getD "" ≠ "" then
                match findStudent db₁ sid with
                | none => db₁
                | some student =>
                    match student.roomNo with
                    | none => db₁
                    | some roomId =>
                        match findRoom db₁ roomId with
                        | none => db₁
                        | some room =>
                            match room.beds.find? (bedAvailForLabel (fee.bedLabel.getD "")) with
                            | none => db₁
                            | some _ =>
                                saveRoom db₁
                                  (occupyBed sid (bedAvailForLabel (fee.bedLabel.getD "")) room)
              else db₁
            -- the source then 404s when the student document is missing, after the save
            if (findStudent db₁ sid).isNone ∧ fee.feeType = "hostel" ∧ fee.bedLabel.getD "" ≠ "" then
              (db₂, .error "Student associated with this fee not found.")
            else
              (updatePendingFees db₂ sid, .ok fee')

/-- `parseInt(packageType.replace('months',''))` on the package-type enum
values (`checkOut` line 692, `shiftRoom` line 904).  `parseInt` reads the
leading digits, so `1month` also maps to 1; non-enum strings give NaN, which
the comparisons of the source treat as never-less-than, i.e. no refund. -/
def parsePkgMonths (pt : String) : Nat :=
  if pt = "1month" then 1
  else if pt = "2months" then 2
  else if pt = "3months" then 3
  else if pt = "4months" then 4
  else if pt = "5months" then 5
  else 0

/-- Result of a successful checkout. -/
structure CheckOutResult where
  db : DB
  fee : Fee
  refundAmount : ℚ
deriving DecidableEq

/-- The early-checkout refund (lines 699-718): day-prorated rent and mess for
the unused days plus the full deposit; no refund at or past the expected
package length. -/
def checkOutRefund (fee : Fee) (daysDiff : Int) : ℚ :=
  let expectedMonths : Nat := parsePkgMonths (fee.packageType.getD "5months")
  let expectedDays : Int := expectedMonths * 30
  if daysDiff < expectedDays then
    let unusedDays := expectedDays - daysDiff
    fee.rentAmount / expectedDays * unusedDays + fee.messAmount / expectedDays * unusedDays
      + fee.depositAmount
  else 0

/-- `POST /api/fees/:feeId/checkout` (`checkOut`, lines 600-951).  `refundFeeId`
models the id of the refund fee document when one is created.  The
response-shaping available-bed computation (lines 868-919) reads but does not
write and is omitted. -/
def checkOut (db : DB) (feeId : Nat) (checkOutDate : Option Int) (now : Int)
    (refundFeeId : Nat) : Except String CheckOutResult :=
  if (match checkOutDate with | some d => decide (d > now) | none => false) then
    .error "Checkout date cannot be in the future."
  else
    match db.fees.find? (fun f => f.id = feeId) with
    | none => .error "Fee not found"
    | some fee =>
      match fee.student with
      | none => .error "Fee is not associated with any student."
      | some sid =>
        if fee.status = "checked_out" ∨ fee.checkOutDate.isSome then .error "Already checked out"
        else
          match findStudent db sid with
          | none => .error "Student associated with this fee not found."
          | some student =>
            match student.roomNo with
            | none => .error "Student does not have a room allocated."
            | some roomId =>
              match findRoom db roomId with
              | none => .error "Room associated with student not found."
              | some room =>
                let checkIn := fee.checkInDate.getD (fee.paidDate.getD fee.createdAt)
                let co := checkOutDate.getD now
                let daysDiff := ceilDiv (co - checkIn) msPerDay
                let refundAmount := checkOutRefund fee daysDiff
                let fee' := { fee with
                  checkOutDate := some co, refundAmount := refundAmount
                  status := "checked_out" }
                let db₁ := saveFee db fee'
                let db₂ :=
                  if refundAmount > 0 then
                    insertFee db₁
                      { id := refundFeeId, student := some sid, feeType := "other"
                        amount := refundAmount
                        dueDate := now, status := "refunded", paymentMethod := none
                        transactionId := none
                        paidDate := some now, packageType := none, checkInDate := none
                        depositAmount := 0
                        rentAmount := 0, messAmount := 0, youstelAmount := 0, hufAmount := 0
                        bedLabel := none, roomNumber := none, roomType := none, source := none
                        createdAt := now, checkOutDate := none, refundAmount := 0
                        paidAmount := 0
                        remainingBalance := 0, remarks := "Refund for early checkout" }
                  else db₁
                -- bed release and occupancy recompute (lines 745-860); the multi-strategy
                -- bed matching of the source collapses to the studentId comparison here,
                -- and its status update coincides with the deallocation one
                let db₃ := saveRoom db₂ (freeForDeallocate sid room)
                let student' := { student with roomNo := none, status := "inactive" }
                .ok { db := saveStudent db₃ student', fee := fee', refundAmount := refundAmount }

/-! ## Ledger projection (`getStudentLedger`, lines 654-2300) -/

/-- One line of the flat ledger built by `getStudentLedger` (presentation-only
fields such as descriptions and vouchers are omitted). -/
structure LedgerLine where
  id : String
  date : Int
  type : String
  component : String
  debit : ℚ
  credit : ℚ
  status : String
  feeId : Nat
  paidAmount : ℚ
  balanceDue : ℚ
deriving DecidableEq

/-- Whether a fee is exploded month-wise (line 707-708): it has a package type,
its source is `checklist_auto` or absent, and rent and mess are positive. -/
def isPackageExploded (fee : Fee) : Bool :=
  fee.packageType.getD "" ≠ "" &&
    (fee.source = some "checklist_auto" || fee.source = none) &&
    fee.rentAmount > 0 && fee.messAmount > 0

/-- The hostel line of month `i` (lines 715-757). -/
def hostelMonthLine (fee : Fee) (enrollment : Int) (months i : Nat) : LedgerLine :=
  let rentPerMonth := fee.rentAmount / months
  let monthEnd := enrollment + i * 30 * msPerDay + 29 * msPerDay
  let monthDue := if fee.dueDate > monthEnd then fee.dueDate else monthEnd
  let hostelPaid : ℚ :=
    if fee.status = "paid" ∨ fee.status = "partial" then
      max 0 (fee.youstelAmount - fee.depositAmount) / months
    else 0
  { id := toString fee.id ++ "_hostel_month_" ++ toString i
    date := monthDue, type := "Fee", component := "Hostel (Youstel)"
    debit := rentPerMonth, credit := 0, status := fee.status, feeId := fee.id
    paidAmount := hostelPaid, balanceDue := max 0 (max 0 (rentPerMonth - hostelPaid)) }

/-- The mess line of month `i` (lines 759-788). -/
def messMonthLine (fee : Fee) (enrollment : Int) (months i : Nat) : LedgerLine :=
  let messPerMonth := fee.messAmount / months
  let monthEnd := enrollment + i * 30 * msPerDay + 29 * msPerDay
  let monthDue := if fee.dueDate > monthEnd then fee.dueDate else monthEnd
  let messPaid : ℚ :=
    if fee.status = "paid" ∨ fee.status = "partial" then fee.hufAmount / months else 0
  { id := toString fee.id ++ "_mess_month_" ++ toString i
    date := monthDue, type := "Fee", component := "Mess (HUF)"
    debit := messPerMonth, credit := 0, status := fee.status, feeId := fee.id
    paidAmount := messPaid, balanceDue := max 0 (messPerMonth - messPaid) }

/-- The single deposit line of a package fee with a deposit (lines 791-824). -/
def depositLine (fee : Fee) : LedgerLine :=
  let depositPaid : ℚ :=
    if fee.status = "paid" ∨ fee.status = "partial" then
      min fee.depositAmount (max 0 (fee.youstelAmount - fee.rentAmount))
    else 0
  { id := toString fee.id ++ "_deposit"
    date := fee.dueDate, type := "Fee", component := "Deposit (Youstel)"
    debit := fee.depositAmount, credit := 0, status := fee.status, feeId := fee.id
    paidAmount := depositPaid, balanceDue := max 0 (fee.depositAmount - depositPaid) }

/-- The component of a non-package fee line (lines 839-847). -/
def regularFeeComponent (fee : Fee) : String :=
  if fee.feeType = "hostel" then "Hostel (Youstel)"
  else if fee.feeType = "mess" then "Mess (HUF)"
  else if fee.feeType = "security" then "Deposit (Youstel)"
  else "Other"

/-- The single line of a non-package fee (lines 826-872). -/
def regularFeeLine (fee : Fee) : LedgerLine :=
  { id := toString fee.id ++ "_fee"
    date := fee.dueDate, type := "Fee", component := regularFeeComponent fee
    debit := fee.amount, credit := 0, status := fee.status, feeId := fee.id
    paidAmount :=
      if fee.status = "paid" ∨ fee.status = "partial" then jsOr fee.paidAmount fee.amount else 0
    balanceDue :=
      if fee.status = "paid" then 0
      else if fee.status = "partial" then fee.remainingBalance
      else fee.amount }

/-- The fee-side lines of one fee (lines 700-874): the month-wise explosion for
package fees, one line otherwise, skipped entirely for refund markers. -/
def feeLines (student : Student) (fee : Fee) : List LedgerLine :=
  if fee.status = "refunded" ∧ fee.feeType = "other" then []
  else if isPackageExploded fee then
    let months := (packageMonthsLookup (fee.packageType.getD "")).getD 1
    let enrollment := student.enrollmentDate.getD fee.dueDate
    ((List.range months).flatMap (fun i =>
      [hostelMonthLine fee enrollment months i, messMonthLine fee enrollment months i])) ++
      (if fee.depositAmount > 0 then [depositLine fee] else [])
  else [regularFeeLine fee]

/-- The split-payment lines of one fee (lines 877-938). -/
def paymentLines (fee : Fee) : List LedgerLine :=
  if (fee.status = "paid" ∨ fee.status = "partial") ∧ fee.paidDate.isSome then
    (if fee.youstelAmount > 0 then
      [{ id := toString fee.id ++ "_payment_youstel"
         date := fee.paidDate.getD 0, type := "Payment"
         component := if fee.feeType = "security" then "Deposit (Youstel)" else "Hostel (Youstel)"
         debit := 0, credit := fee.youstelAmount, status := fee.status, feeId := fee.id
         paidAmount := fee.youstelAmount
         balanceDue :=
           if fee.status = "paid" then 0
           else if fee.status = "partial" then fee.remainingBalance
           else fee.amount - fee.youstelAmount }]
    else []) ++
    (if fee.hufAmount > 0 then
      [{ id := toString fee.id ++ "_payment_huf"
         date := fee.paidDate.getD 0, type := "Payment", component := "Mess (HUF)"
         debit := 0, credit := fee.hufAmount, status := fee.status, feeId := fee.id
         paidAmount := fee.hufAmount
         balanceDue :=
           if fee.status = "paid" then 0
           else if fee.status = "partial" then fee.remainingBalance
           else fee.amount - fee.hufAmount }]
    else []) ++
    (if fee.status = "partial" ∧ fee.remainingBalance > 0 then
      [{ id := toString fee.id ++ "_remaining"
         date := fee.paidDate.getD 0, type := "Balance", component := ""
         debit := 0, credit := 0, status := "pending", feeId := fee.id
         paidAmount := 0, balanceDue := 0 }]
    else [])
  else []

/-- The refund marker line of one fee (lines 942-955). -/
def refundLine (fee : Fee) : List LedgerLine :=
  if fee.status = "refunded" ∧ fee.paidDate.isSome then
    [{ id := toString fee.id ++ "_refund"
       date := fee.paidDate.getD 0, type := "Other", component := ""
       debit := 0, credit := fee.amount, status := "refunded", feeId := fee.id
       paidAmount := 0, balanceDue := 0 }]
  else []

/-- The fees selected by the ledger projection (lines 668-675):
`checklist_auto` fees and legacy fees without a source. -/
def ledgerFeesOf (fees : List Fee) (sid : Nat) : List Fee :=
  fees.filter (fun f =>
    f.student = some sid && (f.source = some "checklist_auto" || f.source = none))

/-- The complete flat ledger before the final date sort (lines 697-956). -/
def completeLedger (student : Student) (fees : List Fee) : List LedgerLine :=
  fees.flatMap (fun f => feeLines student f ++ paymentLines f ++ refundLine f)

/-! ### Session status pipeline (lines 1093-2206) -/

/-- The slice of a projection session that the status logic reads. -/
structure Session where
  sessionId : Nat
  status : String
  totalAmount : ℚ
deriving DecidableEq

/-- A session seed from one fee (lines 1180-1208): the initial status is the
stored fee status. -/
def mkSessionFromFee (fee : Fee) : Session :=
  { sessionId := fee.id, status := fee.status, totalAmount := fee.amount }

/-- The balance-driven status rewrite (lines 1981-1999), applied per session
with its computed outstanding balance `totalDue`. -/
def adjustStatusByBalance (s : Session) (totalDue : ℚ) : Session :=
  if totalDue = 0 then
    (if s.status ≠ "paid" ∧ s.status ≠ "checked_out" then { s with status := "paid" } else s)
  else if 0 < totalDue ∧ totalDue < s.totalAmount then
    (if s.status ≠ "partial" ∧ s.status ≠ "checked_out" then { s with status := "partial" } else s)
  else if totalDue ≥ s.totalAmount ∧ s.status = "paid" then { s with status := "pending" }
  else s

/-- The inactive-student pass (lines 2085-2096): force every session that is not
already `completed` or `checked_out` to `completed`. -/
def forceInactiveSessions (sessions : List Session) : List Session :=
  sessions.map (fun s =>
    if s.status ≠ "completed" ∧ s.status ≠ "checked_out" then { s with status := "completed" }
    else s)

/-- The session statuses `getStudentLedger` returns for an inactive student with
no recorded payments and no manual ledger entries: every matched payment sum is
zero, so each session's `totalDue` is `max 0 totalAmount` (line 1937), the
balance rewrite of lines 1981-1999 runs, and the inactive pass of
lines 2085-2096 follows.  The payment-matching engine (lines 1220-1979) only
contributes the zero sums here and is not modelled further. -/
def inactiveSessionStatuses (fees : List Fee) (sid : Nat) : List Session :=
  forceInactiveSessions
    ((ledgerFeesOf fees sid).map (fun f =>
      adjustStatusByBalance (mkSessionFromFee f) (max 0 f.amount)))

/-! ## Room invariants (spec section 3) -/

/-- The Room invariant of the claim: the cached `occupied` counter equals the
number of occupied beds and the length of the `students` array. -/
def roomConsistent (r : Room) : Prop :=
  r.occupied = occupiedCount r.beds ∧ r.occupied = r.students.length

/-- Full well-formedness of a room document: the counting invariant, no
duplicate student references, a bed is flagged occupied exactly when it holds a
student, every listed student holds exactly one bed, and every bed holder is
listed. -/
def roomWF (r : Room) : Prop :=
  r.occupied = occupiedCount r.beds ∧
  occupiedCount r.beds = r.students.length ∧
  r.students.Nodup ∧
  (∀ b ∈ r.beds, b.isOccupied = b.studentId.isSome) ∧
  (∀ s ∈ r.students, (r.beds.filter (fun b => b.studentId = some s)).length = 1) ∧
  (∀ b ∈ r.beds, ∀ s, b.studentId = some s → s ∈ r.students)

/-- The cross-document Occupant invariant, seen from one room: a student is
listed in (or holds a bed of) a room only if it is their current room. -/
def studentClearOf (sid : Nat) (r : Room) : Prop :=
  sid ∉ r.students ∧ ∀ b ∈ r.beds, b.studentId ≠ some sid

/-! ## Concrete fixtures used by witnesses and counterexamples -/

/-- Room 1, bed A: held by student 1. -/
def bedA1 : Bed :=
  { id := 101, bedLabel := "A", bedNumber := "1", isOccupied := true, studentId := some 1 }

/-- Room 1, bed B: free. -/
def bedB1 : Bed :=
  { id := 102, bedLabel := "B", bedNumber := "2", isOccupied := false, studentId := none }

/-- A double room housing student 1 on bed A. -/
def room1 : Room :=
  { id := 1, roomNo := "101", capacity := 2, occupied := 1, status := "available"
    type := "double", students := [1], beds := [bedA1, bedB1]
    rentPerMonthTable := [("5months", 10000)], rent := 9000, rentFor5Months := 50000
    messChargePerMonth := 3000 }

/-- An empty double room. -/
def room2 : Room :=
  { id := 2, roomNo := "102", capacity := 2, occupied := 0, status := "available"
    type := "double"
    students := []
    beds :=
      [{ id := 201, bedLabel := "A", bedNumber := "1", isOccupied := false, studentId := none },
       { id := 202, bedLabel := "B", bedNumber := "2", isOccupied := false, studentId := none }]
    rentPerMonthTable := [("5months", 12000)], rent := 11000, rentFor5Months := 60000
    messChargePerMonth := 3000 }

/-- A full single room housing student 9. -/
def roomFull : Room :=
  { id := 3, roomNo := "103", capacity := 1, occupied := 1, status := "occupied"
    type := "single"
    students := [9]
    beds := [{ id := 301, bedLabel := "A", bedNumber := "1", isOccupied := true,
               studentId := some 9 }]
    rentPerMonthTable := [("5months", 15000)], rent := 14000, rentFor5Months := 75000
    messChargePerMonth := 3000 }

/-- Student 1: active, housed in room 1, enrolled at epoch 0. -/
def student1 : Student :=
  { id := 1, roomNo := some 1, status := "active", enrollmentDate := some 0
    allocationDate := some 0, admissionMonths := none, hasPendingFees := false
    totalPendingAmount := 0 }

/-- Student 2: active, no room. -/
def student2 : Student :=
  { id := 2, roomNo := none, status := "active", enrollmentDate := some 0
    allocationDate := none, admissionMonths := none, hasPendingFees := false
    totalPendingAmount := 0 }

/-- Database for the allocation scenarios: rooms 1 and 2, students 1 and 2. -/
def dbAlloc : DB := { rooms := [room1, room2], students := [student1, student2], fees := []
                      ledger := [] }

/-- Database with a full room and a roomless student. -/
def dbFull : DB := { rooms := [roomFull], students := [student2], fees := [], ledger := [] }

/-- An empty collection plan. -/
def noPlan : CollectionPlan := { hostel := noCollect, mess := noCollect, deposit := noCollect }

/-- Default generation arguments: a 5-month package, no explicit due date. -/
def args5m : GenArgs := { packageType := "5months", dueDate := none, plan := noPlan }

/-- A partially paid prior auto-generated package fee of student 1. -/
def feePartial : Fee :=
  { id := 50, student := some 1, feeType := "hostel", amount := 75000, dueDate := 0
    status := "partial", paymentMethod := some "cash", transactionId := none
    paidDate := some 0, packageType := some "5months", checkInDate := none
    depositAmount := 10000, rentAmount := 50000, messAmount := 15000
    youstelAmount := 60000, hufAmount := 15000, bedLabel := some "A"
    roomNumber := some "101", roomType := some "double", source := some "checklist_auto"
    createdAt := 0, checkOutDate := none, refundAmount := 0, paidAmount := 40000
    remainingBalance := 35000, remarks := "" }

/-- `dbAlloc` with one partially paid prior package fee for student 1. -/
def dbResume : DB := { dbAlloc with fees := [feePartial] }

/-- A pending 5-month package fee of student 1, checked in at epoch 0, with
rent 50000, mess 15000 and deposit 10000 (the proration scenario of the spec). -/
def feeCO : Fee :=
  { id := 5, student := some 1, feeType := "hostel", amount := 75000, dueDate := 0
    status := "pending", paymentMethod := none, transactionId := none
    paidDate := none, packageType := some "5months", checkInDate := some 0
    depositAmount := 10000, rentAmount := 50000, messAmount := 15000
    youstelAmount := 60000, hufAmount := 15000, bedLabel := some "A"
    roomNumber := some "101", roomType := some "double", source := some "checklist_auto"
    createdAt := 0, checkOutDate := none, refundAmount := 0, paidAmount := 0
    remainingBalance := 0, remarks := "" }

/-- Database for the checkout scenario. -/
def dbCO : DB := { rooms := [room1], students := [student1], fees := [feeCO], ledger := [] }

/-- An already fully paid miscellaneous fee of student 1. -/
def feePaid : Fee :=
  { id := 6, student := some 1, feeType := "other", amount := 100, dueDate := 0
    status := "paid", paymentMethod := some "cash", transactionId := some "T0"
    paidDate := some 5, packageType := none, checkInDate := none
    depositAmount := 0, rentAmount := 0, messAmount := 0
    youstelAmount := 0, hufAmount := 0, bedLabel := none
    roomNumber := none, roomType := none, source := none
    createdAt := 0, checkOutDate := none, refundAmount := 0, paidAmount := 100
    remainingBalance := 0, remarks := "" }

/-- Database for the repeated-payment scenario. -/
def dbPaid : DB := { rooms := [], students := [student1], fees := [feePaid], ledger := [] }

/-- A checked-out historical package fee of student 1. -/
def feeCheckedOut : Fee :=
  { feeCO with id := 7, status := "checked_out", checkOutDate := some 100 }

/-- Student 1 after checkout: inactive, no room. -/
def student1Inactive : Student := { student1 with roomNo := none, status := "inactive" }

/-! # Theorems -/

/-! ## C9: sessions of an inactive student -/

/-- C9 (amended): for an inactive student every session returned by the ledger
projection has status `completed` or `checked_out` — never `active`.  (The
original claim said every such session has status `completed`; sessions whose
fee was checked out keep `checked_out`, see the counterexample.) -/
theorem inactive_sessions_never_active (fees : List Fee) (sid : Nat) (s : Session)
    (hs : s ∈ inactiveSessionStatuses fees sid) :
    (s.status = "completed" ∨ s.status = "checked_out") ∧ s.status ≠ "active" := by
  unfold inactiveSessionStatuses forceInactiveSessions at hs
  rw [List.mem_map] at hs
  obtain ⟨t, _, rfl⟩ := hs
  rcases eq_or_ne t.status "completed" with hc | hc
  · constructor
    · left
      simp [hc]
    · simp [hc]
  · rcases eq_or_ne t.status "checked_out" with ho | ho
    · constructor
      · right
        simp [hc, ho]
      · simp [hc, ho]
    · constructor
      · left
        simp [hc, ho]
      · simp [hc, ho]

/-- C9 witness: instantiating the theorem on a concrete inactive ledger. -/
theorem inactive_sessions_never_active_witness :
    ∃ s ∈ inactiveSessionStatuses [feeCO] 1,
      (s.status = "completed" ∨ s.status = "checked_out") ∧ s.status ≠ "active" := by
  have hmem : { sessionId := 5, status := "completed", totalAmount := (75000 : ℚ) } ∈
      inactiveSessionStatuses [feeCO] 1 := by decide
  exact ⟨_, hmem, inactive_sessions_never_active [feeCO] 1 _ hmem⟩

/-- C9 counterexample: an inactive student with a checked-out historical fee
gets that session back with status `checked_out`, not `completed`. -/
theorem inactive_session_checked_out_not_completed :
    student1Inactive.status = "inactive" ∧
    (inactiveSessionStatuses [feeCheckedOut] student1Inactive.id).map Session.status =
      ["checked_out"] ∧ ("checked_out" : String) ≠ "completed" := by
  refine ⟨rfl, by decide, by decide⟩

/-! ## C7: advisory lock of package generation -/

/-- C7: a package-generation request finding a lock younger than 10 seconds is
rejected with the retry signal and performs no write (fees, ledger, rooms,
students and the lock map are untouched); every request that passes the gate
schedules the lock release `lockReleaseDelayMs = 2000` ms after completion. -/
theorem package_lock_rejects_young_and_releases_after_2s (locks : LockMap) (db : DB)
    (sid : Nat) (args : GenArgs) (now t : Int) (fid eid : Nat)
    (h1 : List.lookup sid locks = some t) (h2 : now - t < lockWindowMs) :
    ((autoCreateWithLock locks db sid args now fid eid).db = db ∧
     (autoCreateWithLock locks db sid args now fid eid).locks = locks ∧
     (autoCreateWithLock locks db sid args now fid eid).result =
       .error "Fee creation already in progress. Please wait..." ∧
     (autoCreateWithLock locks db sid args now fid eid).releaseAt = none) ∧
    (∀ (locks₂ : LockMap) (db₂ : DB) (l₂ : LockMap), lockGate locks₂ sid now = some l₂ →
      (autoCreateWithLock locks₂ db₂ sid args now fid eid).releaseAt =
        some (now + lockReleaseDelayMs)) := by
  constructor
  · unfold autoCreateWithLock lockGate
    rw [h1]
    simp [h2]
  · intro locks₂ db₂ l₂ hg
    unfold autoCreateWithLock
    rw [hg]
    cases autoCreateChecklistFee db₂ sid args now fid eid <;> rfl

/-- C7 witness: a lock set at time 0 rejects a second request at time 5000; a
request with no lock in the map schedules release at completion + 2000 ms. -/
theorem package_lock_witness :
    (List.lookup 1 [((1 : Nat), (0 : Int))] = some 0 ∧ (5000 : Int) - 0 < lockWindowMs) ∧
    (autoCreateWithLock [((1 : Nat), (0 : Int))] dbAlloc 1 args5m 5000 60 70).releaseAt = none ∧
    (autoCreateWithLock [] dbAlloc 1 args5m 5000 60 70).releaseAt = some 7000 := by
  have h := package_lock_rejects_young_and_releases_after_2s [((1 : Nat), (0 : Int))] dbAlloc 1
    args5m 5000 0 60 70 (by decide) (by decide)
  refine ⟨⟨by decide, by decide⟩, h.1.2.2.2, ?_⟩
  have h2 := h.2 [] dbAlloc (setLock [] 1 5000) (by decide)
  simpa [lockReleaseDelayMs] using h2


/-! ## C3: day-prorated checkout refund -/

/-- On a successful checkout the stored refund is `checkOutRefund` evaluated at
the elapsed-day count computed by the handler. -/
theorem checkOut_ok_refund (db : DB) (feeId : Nat) (coDate : Option Int) (now : Int)
    (rid : Nat) (res : CheckOutResult) (fee : Fee)
    (hfee : db.fees.find? (fun f => f.id = feeId) = some fee)
    (hok : checkOut db feeId coDate now rid = .ok res) :
    res.refundAmount = checkOutRefund fee
      (ceilDiv (coDate.getD now - fee.checkInDate.getD (fee.paidDate.getD fee.createdAt))
        msPerDay) := by
  unfold checkOut at hok
  rw [hfee] at hok
  dsimp only [] at hok
  repeat' split at hok
  all_goals try exact Except.noConfusion hok
  all_goals injection hok with h
  all_goals subst h
  all_goals rfl

/-- C3: for every checkout whose elapsed days `D` are fewer than the expected
package days `E = months * 30`, the refund is rent/day and mess/day times the
unused days plus the full deposit; in particular checkout at day 60 of a
5-month package with rent 50000, mess 15000 and deposit 10000 refunds exactly
49000. -/
theorem checkOut_day_prorated_refund (db : DB) (feeId : Nat) (coDate : Option Int)
    (now : Int) (rid : Nat) (res : CheckOutResult) (fee : Fee) (E D : Int)
    (hfee : db.fees.find? (fun f => f.id = feeId) = some fee)
    (hok : checkOut db feeId coDate now rid = .ok res)
    (hE : (parsePkgMonths (fee.packageType.getD "5months") : Int) * 30 = E)
    (hD : ceilDiv (coDate.getD now - fee.checkInDate.getD (fee.paidDate.getD fee.createdAt))
        msPerDay = D)
    (hdays : D < E) :
    res.refundAmount =
      fee.rentAmount / (E : ℚ) * ((E - D : Int) : ℚ) +
        fee.messAmount / (E : ℚ) * ((E - D : Int) : ℚ) + fee.depositAmount ∧
    (∀ res', checkOut dbCO 5 (some 5184000000) 5184000000 77 = .ok res' →
      res'.refundAmount = 49000) := by
  constructor
  · have h := checkOut_ok_refund db feeId coDate now rid res fee hfee hok
    rw [h]
    unfold checkOutRefund
    dsimp only
    rw [hE, hD, if_pos hdays]
  · intro res' hok'
    have hfee' : dbCO.fees.find? (fun f => f.id = 5) = some feeCO := by rfl
    have h := checkOut_ok_refund dbCO 5 (some 5184000000) 5184000000 77 res' feeCO hfee' hok'
    rw [h]
    have hd : ceilDiv ((some (5184000000 : Int)).getD 5184000000 -
        feeCO.checkInDate.getD (feeCO.paidDate.getD feeCO.createdAt)) msPerDay = 60 := by decide
    rw [hd]
    unfold checkOutRefund
    dsimp only
    have hp : parsePkgMonths (feeCO.packageType.getD "5months") = 5 := by rfl
    rw [hp]
    norm_num [feeCO]

/-- C3 witness: the concrete day-60 checkout succeeds and refunds 49000. -/
theorem checkOut_day_prorated_refund_witness :
    ∃ res, checkOut dbCO 5 (some 5184000000) 5184000000 77 = .ok res ∧
      res.refundAmount = 49000 := by
  have hs : (checkOut dbCO 5 (some 5184000000) 5184000000 77).toOption.isSome = true := by decide
  cases hok : checkOut dbCO 5 (some 5184000000) 5184000000 77 with
  | error e =>
      rw [hok] at hs
      exact absurd hs (by simp [Except.toOption])
  | ok res =>
      refine ⟨res, rfl, ?_⟩
      have hfee : dbCO.fees.find? (fun f => f.id = 5) = some feeCO := by decide
      have h := checkOut_day_prorated_refund dbCO 5 (some 5184000000) 5184000000 77 res feeCO
        150 60 hfee hok (by decide) (by decide) (by decide)
      exact h.2 res hok

/-! ## Package generation: shared success facts (C2, C6, C8, C10) -/

/-- The `PACKAGE_MONTHS[pt] || 1` fallback is always at least one month. -/
theorem one_le_packageMonths (pt : String) : 1 ≤ (packageMonthsLookup pt).getD 1 := by
  unfold packageMonthsLookup
  repeat' split
  all_goals simp

/-- `saveStudent` leaves the ledger untouched. -/
theorem saveStudent_ledger (db : DB) (s : Student) : (saveStudent db s).ledger = db.ledger := rfl

/-- `saveStudent` leaves the fees untouched. -/
theorem saveStudent_fees (db : DB) (s : Student) : (saveStudent db s).fees = db.fees := rfl

/-- What a successful `autoCreateChecklistFee` guarantees about the created fee
and the ledger afterwards. -/
theorem autoCreate_ok_spec (db : DB) (sid : Nat) (args : GenArgs) (now : Int)
    (fid eid : Nat) (db' : DB) (fee : Fee) (st : Student)
    (hst : findStudent db sid = some st)
    (h : autoCreateChecklistFee db sid args now fid eid = .ok (db', fee)) :
    fee.student = some sid ∧ fee.feeType = "hostel" ∧ fee.status = "pending" ∧
    fee.paidDate = none ∧ fee.source = some "checklist_auto" ∧
    fee.packageType = some args.packageType ∧
    fee.depositAmount = depositCharge db.fees db.ledger sid ∧
    0 < fee.rentAmount ∧ 0 < fee.messAmount ∧
    fee.amount = fee.rentAmount + fee.messAmount + fee.depositAmount ∧
    fee.dueDate = (match args.dueDate with
      | some d => d
      | none => defaultDueDate db.fees sid st.enrollmentDate now) ∧
    db'.ledger =
      (if !(db.ledger.filter (fun e => e.student = sid)).isEmpty ∧
          (autoFeesOf db.fees sid).isEmpty then
        db.ledger.filter (fun e => e.student ≠ sid)
      else db.ledger) ++ collectionEntries sid fid args.plan fee.dueDate eid := by
  unfold autoCreateChecklistFee at h
  rw [hst] at h
  dsimp only at h
  cases hroom : st.roomNo with
  | none => rw [hroom] at h; exact Except.noConfusion h
  | some roomId =>
  rw [hroom] at h
  dsimp only at h
  cases hfr : findRoom db roomId with
  | none => rw [hfr] at h; exact Except.noConfusion h
  | some room =>
  rw [hfr] at h
  dsimp only at h
  by_cases hg : getRentPerPackage room args.packageType ≤ 0 ∨ jsOr room.messChargePerMonth 3000 ≤ 0
  · rw [if_pos hg] at h
    exact Except.noConfusion h
  · rw [if_neg hg] at h
    push_neg at hg
    injection h with h
    injection h with h1 h2
    subst h1
    subst h2
    have hm : (0 : ℚ) < ((packageMonthsLookup args.packageType).getD 1 : ℚ) := by
      have := one_le_packageMonths args.packageType
      exact_mod_cast Nat.lt_of_lt_of_le Nat.zero_lt_one this
    refine ⟨rfl, rfl, rfl, rfl, rfl, rfl, rfl, mul_pos hg.1 hm, mul_pos hg.2 hm, rfl, rfl, ?_⟩
    by_cases henr : st.enrollmentDate = none
    · rw [if_pos henr]
      simp only [saveStudent_ledger, saveStudent_fees]
      by_cases hcond : (!(List.filter (fun e => decide (e.student = sid)) db.ledger).isEmpty) =
          true ∧ (autoFeesOf db.fees sid).isEmpty = true
      · rw [if_pos hcond, if_pos hcond]
        split <;> simp [insertLedger, insertFee, deleteLedgerOfStudent, saveStudent]
      · rw [if_neg hcond, if_neg hcond]
        split <;> simp [insertLedger, insertFee, deleteLedgerOfStudent, saveStudent]
    · rw [if_neg henr]
      by_cases hcond : (!(List.filter (fun e => decide (e.student = sid)) db.ledger).isEmpty) =
          true ∧ (autoFeesOf db.fees sid).isEmpty = true
      · rw [if_pos hcond, if_pos hcond]
        split <;> simp [insertLedger, insertFee, deleteLedgerOfStudent, saveStudent]
      · rw [if_neg hcond, if_neg hcond]
        split <;> simp [insertLedger, insertFee, deleteLedgerOfStudent, saveStudent]

/-- The layered `hasPaidDeposit` test collapses to: some prior auto fee has a
positive deposit and status paid or partial (its inner
`youstelAmount ≥ depositAmount ∨ depositAmount > 0` disjunct is vacuous). -/
theorem hasPaidDeposit_iff (fees : List Fee) (sid : Nat) :
    hasPaidDeposit fees sid = true ↔
      ∃ f ∈ fees, f.student = some sid ∧ f.source = some "checklist_auto" ∧
        0 < f.depositAmount ∧ (f.status = "paid" ∨ f.status = "partial") := by
  unfold hasPaidDeposit autoFeesOf
  simp only [List.any_eq_true, List.mem_filter, Bool.and_eq_true, Bool.or_eq_true,
    decide_eq_true_eq]
  constructor
  · rintro ⟨f, ⟨hf, hsid, hsrc⟩, hdep, hstat, -⟩
    exact ⟨f, hf, hsid, hsrc, hdep, hstat⟩
  · rintro ⟨f, hf, hsid, hsrc, hdep, hstat⟩
    exact ⟨f, ⟨hf, hsid, hsrc⟩, hdep, hstat, Or.inr hdep⟩

/-- The 50%-of-deposit test spelled out: 5000. -/
theorem hasDepositPayment_iff (ledger : List LedgerEntry) (sid : Nat) :
    hasDepositPayment ledger sid = true ↔ 5000 ≤ netDepositPaid ledger sid := by
  unfold hasDepositPayment securityDepositAmount
  rw [decide_eq_true_eq]
  norm_num

/-- C2: the deposit component of a freshly generated package fee is zero exactly
when a prior auto-generated fee shows the deposit paid (positive deposit,
status paid or partial) or the net deposit payments of the manual ledger reach
half of the standard 10000 deposit; otherwise it is the full 10000. -/
theorem deposit_charged_once_per_lifetime (db : DB) (sid : Nat) (args : GenArgs) (now : Int)
    (fid eid : Nat) (db' : DB) (fee : Fee) (st : Student)
    (hst : findStudent db sid = some st)
    (h : autoCreateChecklistFee db sid args now fid eid = .ok (db', fee)) :
    ((∃ f ∈ db.fees, f.student = some sid ∧ f.source = some "checklist_auto" ∧
        0 < f.depositAmount ∧ (f.status = "paid" ∨ f.status = "partial")) ∨
        5000 ≤ netDepositPaid db.ledger sid →
      fee.depositAmount = 0) ∧
    (¬((∃ f ∈ db.fees, f.student = some sid ∧ f.source = some "checklist_auto" ∧
        0 < f.depositAmount ∧ (f.status = "paid" ∨ f.status = "partial")) ∨
        5000 ≤ netDepositPaid db.ledger sid) →
      fee.depositAmount = 10000) := by
  have hdep := (autoCreate_ok_spec db sid args now fid eid db' fee st hst h).2.2.2.2.2.2.1
  rw [hdep]
  unfold depositCharge
  constructor
  · intro hcond
    have : ¬(!hasPaidDeposit db.fees sid && !hasDepositPayment db.ledger sid) = true := by
      rcases hcond with hc | hc
      · have := (hasPaidDeposit_iff db.fees sid).mpr hc
        simp [this]
      · have := (hasDepositPayment_iff db.ledger sid).mpr hc
        simp [this]
    rw [if_neg this]
  · intro hcond
    rw [not_or] at hcond
    have h1 : hasPaidDeposit db.fees sid = false := by
      rcases hb : hasPaidDeposit db.fees sid with _ | _
      · rfl
      · exact absurd ((hasPaidDeposit_iff db.fees sid).mp hb) hcond.1
    have h2 : hasDepositPayment db.ledger sid = false := by
      rcases hb : hasDepositPayment db.ledger sid with _ | _
      · rfl
      · exact absurd ((hasDepositPayment_iff db.ledger sid).mp hb) hcond.2
    rw [if_pos (by simp [h1, h2])]
    rfl

/-- C2 witness: a first-time student with no prior fees and an empty ledger is
charged the full 10000 deposit. -/
theorem deposit_charged_once_per_lifetime_witness :
    ∃ db' fee, autoCreateChecklistFee dbAlloc 1 args5m 0 60 70 = .ok (db', fee) ∧
      fee.depositAmount = 10000 := by
  have hs : (autoCreateChecklistFee dbAlloc 1 args5m 0 60 70).toOption.isSome = true := by decide
  cases hok : autoCreateChecklistFee dbAlloc 1 args5m 0 60 70 with
  | error e =>
      rw [hok] at hs
      exact absurd hs (by simp [Except.toOption])
  | ok p =>
      obtain ⟨dbx, feex⟩ := p
      refine ⟨dbx, feex, rfl, ?_⟩
      have h := deposit_charged_once_per_lifetime dbAlloc 1 args5m 0 60 70 dbx feex student1
        rfl hok
      apply h.2
      rw [not_or]
      refine ⟨by decide, ?_⟩
      have hnet : netDepositPaid dbAlloc.ledger 1 = 0 := by
        simp [netDepositPaid, depositTaggedEntries, dbAlloc]
      rw [hnet]
      norm_num

/-! ## C8: default due date -/

/-- The resume detection spelled out: prior auto fees exist and each has status
paid, partial, checked_out or refunded. -/
theorem isResumeScenario_iff (fees : List Fee) (sid : Nat) :
    isResumeScenario fees sid = true ↔
      autoFeesOf fees sid ≠ [] ∧
        ∀ f ∈ autoFeesOf fees sid,
          f.status = "paid" ∨ f.status = "partial" ∨ f.status = "checked_out" ∨
            f.status = "refunded" := by
  unfold isResumeScenario isCompletedFeeStatus
  rw [Bool.and_eq_true]
  simp only [List.all_eq_true, Bool.or_eq_true, decide_eq_true_eq, Bool.not_eq_true]
  constructor
  · rintro ⟨h1, h2⟩
    refine ⟨?_, ?_⟩
    · intro hnil
      rw [hnil] at h1
      simp at h1
    · intro f hf
      rcases h2 f hf with ((ha | hb) | hc) | hd
      · exact Or.inl ha
      · exact Or.inr (Or.inl hb)
      · exact Or.inr (Or.inr (Or.inl hc))
      · exact Or.inr (Or.inr (Or.inr hd))
  · rintro ⟨h1, h2⟩
    refine ⟨?_, ?_⟩
    · rcases he : (autoFeesOf fees sid).isEmpty with _ | _
      · simp
      · exact absurd (List.isEmpty_iff.mp he) h1
    · intro f hf
      rcases h2 f hf with ha | hb | hc | hd
      · exact Or.inl (Or.inl (Or.inl ha))
      · exact Or.inl (Or.inl (Or.inr hb))
      · exact Or.inl (Or.inr hc)
      · exact Or.inr hd

/-- C8 (amended): when no dueDate is supplied, the created fee's dueDate is
today whenever the student has prior auto-generated fees all with status paid,
partial, checked_out or refunded (the source counts a partially paid fee as
settled for resume detection), else the enrollment date when set, else today. -/
theorem default_dueDate_resume_or_enrollment (db : DB) (sid : Nat) (args : GenArgs)
    (now : Int) (fid eid : Nat) (db' : DB) (fee : Fee) (st : Student)
    (hst : findStudent db sid = some st)
    (hdue : args.dueDate = none)
    (h : autoCreateChecklistFee db sid args now fid eid = .ok (db', fee)) :
    fee.dueDate =
      if autoFeesOf db.fees sid ≠ [] ∧
          ∀ f ∈ autoFeesOf db.fees sid,
            f.status = "paid" ∨ f.status = "partial" ∨ f.status = "checked_out" ∨
              f.status = "refunded" then now
      else st.enrollmentDate.getD now := by
  obtain ⟨-, -, -, -, -, -, -, -, -, -, hdd, -⟩ :=
    autoCreate_ok_spec db sid args now fid eid db' fee st hst h
  rw [hdue] at hdd
  rw [hdd]
  unfold defaultDueDate
  by_cases hres : isResumeScenario db.fees sid = true
  · rw [if_pos hres, if_pos ((isResumeScenario_iff db.fees sid).mp hres)]
  · rw [if_neg hres]
    have hneg : ¬(autoFeesOf db.fees sid ≠ [] ∧
        ∀ f ∈ autoFeesOf db.fees sid,
          f.status = "paid" ∨ f.status = "partial" ∨ f.status = "checked_out" ∨
            f.status = "refunded") := fun hc => hres ((isResumeScenario_iff db.fees sid).mpr hc)
    rw [if_neg hneg]
    cases st.enrollmentDate <;> rfl

/-- C8 witness: a first-time student (no prior fees) with enrollment date 0 gets
dueDate 0, the enrollment date. -/
theorem default_dueDate_witness :
    ∃ db' fee, autoCreateChecklistFee dbAlloc 1 args5m 777 60 70 = .ok (db', fee) ∧
      fee.dueDate = 0 := by
  have hs : (autoCreateChecklistFee dbAlloc 1 args5m 777 60 70).toOption.isSome = true := by
    decide
  cases hok : autoCreateChecklistFee dbAlloc 1 args5m 777 60 70 with
  | error e =>
      rw [hok] at hs
      exact absurd hs (by simp [Except.toOption])
  | ok p =>
      obtain ⟨dbx, feex⟩ := p
      refine ⟨dbx, feex, rfl, ?_⟩
      have h := default_dueDate_resume_or_enrollment dbAlloc 1 args5m 777 60 70 dbx feex
        student1 rfl rfl hok
      rw [h, if_neg (by decide)]
      rfl

/-- C8 counterexample: with a prior partially paid (hence not fully settled)
auto fee and enrollment date 0, the created fee is dated today (1000000), not
the enrollment date the claim predicts. -/
theorem default_dueDate_counterexample :
    feePartial.status = "partial" ∧ feePartial.status ≠ "paid" ∧
    student1.enrollmentDate = some 0 ∧
    (autoCreateChecklistFee dbResume 1 args5m 1000000 60 70).toOption.map
      (fun p => p.2.dueDate) = some 1000000 ∧ (1000000 : Int) ≠ 0 := by
  exact ⟨rfl, by decide, rfl, by rfl, by decide⟩

/-! ## C10: orphaned-ledger cleanup -/

/-- C10: if the student has at least one manual ledger entry and no
auto-generated package fee when generation runs, all their manual entries are
deleted before the package fee is created; in every other state prior entries
are kept; the collection-plan entries are appended either way. -/
theorem generation_orphaned_ledger_cleanup (db : DB) (sid : Nat) (args : GenArgs)
    (now : Int) (fid eid : Nat) (db' : DB) (fee : Fee) (st : Student)
    (hst : findStudent db sid = some st)
    (h : autoCreateChecklistFee db sid args now fid eid = .ok (db', fee)) :
    db'.ledger =
      (if (∃ e ∈ db.ledger, e.student = sid) ∧ autoFeesOf db.fees sid = [] then
        db.ledger.filter (fun e => e.student ≠ sid)
      else db.ledger) ++ collectionEntries sid fid args.plan fee.dueDate eid := by
  obtain ⟨-, -, -, -, -, -, -, -, -, -, -, hledger⟩ :=
    autoCreate_ok_spec db sid args now fid eid db' fee st hst h
  rw [hledger]
  congr 1
  apply if_congr _ rfl rfl
  constructor
  · rintro ⟨h1, h2⟩
    refine ⟨?_, List.isEmpty_iff.mp h2⟩
    by_contra hno
    push_neg at hno
    have : db.ledger.filter (fun e => decide (e.student = sid)) = [] := by
      apply List.filter_eq_nil_iff.mpr
      intro e he
      simp [hno e he]
    rw [this] at h1
    simp at h1
  · rintro ⟨⟨e, he, hesid⟩, h2⟩
    constructor
    · have hmem : e ∈ db.ledger.filter (fun x => decide (x.student = sid)) :=
        List.mem_filter.mpr ⟨he, by simp [hesid]⟩
      rcases hf : db.ledger.filter (fun x => decide (x.student = sid)) with _ | ⟨a, l⟩
      · rw [hf] at hmem
        simp at hmem
      · rw [hf]
        simp
    · exact List.isEmpty_iff.mpr h2

/-- C10 witness: with no prior ledger entries the condition is false and the
resulting ledger is exactly the (empty) collection-entry list. -/
theorem generation_orphaned_ledger_cleanup_witness :
    ∃ db' fee, autoCreateChecklistFee dbAlloc 1 args5m 0 60 70 = .ok (db', fee) ∧
      db'.ledger = [] := by
  have hs : (autoCreateChecklistFee dbAlloc 1 args5m 0 60 70).toOption.isSome = true := by decide
  cases hok : autoCreateChecklistFee dbAlloc 1 args5m 0 60 70 with
  | error e =>
      rw [hok] at hs
      exact absurd hs (by simp [Except.toOption])
  | ok p =>
      obtain ⟨dbx, feex⟩ := p
      refine ⟨dbx, feex, rfl, ?_⟩
      have h := generation_orphaned_ledger_cleanup dbAlloc 1 args5m 0 60 70 dbx feex
        student1 rfl hok
      rw [h, if_neg (by simp [dbAlloc])]
      rfl

/-! ## C6: round trip, 5-month package to ledger lines -/

/-- C6: projecting the ledger right after generating a 5-month package yields
exactly 5 hostel (rent) lines and 5 mess lines, one deposit line exactly when a
deposit was charged, and the debit amounts sum to the package fee total. -/
theorem roundtrip_5month_ledger_lines (db : DB) (sid : Nat) (args : GenArgs) (now : Int)
    (fid eid : Nat) (db' : DB) (fee : Fee) (st st₂ : Student)
    (hst : findStudent db sid = some st)
    (hpt : args.packageType = "5months")
    (h : autoCreateChecklistFee db sid args now fid eid = .ok (db', fee)) :
    ((completeLedger st₂ [fee]).filter (fun l => l.component = "Hostel (Youstel)")).length = 5 ∧
    ((completeLedger st₂ [fee]).filter (fun l => l.component = "Mess (HUF)")).length = 5 ∧
    (0 < fee.depositAmount →
      ((completeLedger st₂ [fee]).filter
        (fun l => l.component = "Deposit (Youstel)")).length = 1) ∧
    (fee.depositAmount = 0 →
      ((completeLedger st₂ [fee]).filter
        (fun l => l.component = "Deposit (Youstel)")).length = 0) ∧
    ((completeLedger st₂ [fee]).map LedgerLine.debit).sum = fee.amount := by
  obtain ⟨-, hft, hstat, hpd, hsrc, hpkg, -, hrent, hmess, hamount, -, -⟩ :=
    autoCreate_ok_spec db sid args now fid eid db' fee st hst h
  rw [hpt] at hpkg
  have hpay : paymentLines fee = [] := by
    unfold paymentLines
    rw [if_neg]
    rintro ⟨hps, -⟩
    rw [hstat] at hps
    rcases hps with h1 | h1 <;> simp at h1
  have href : refundLine fee = [] := by
    unfold refundLine
    rw [if_neg]
    rintro ⟨hps, -⟩
    rw [hstat] at hps
    simp at hps
  have hskip : ¬(fee.status = "refunded" ∧ fee.feeType = "other") := by
    rintro ⟨hps, -⟩
    rw [hstat] at hps
    simp at hps
  have hexp : isPackageExploded fee = true := by
    unfold isPackageExploded
    simp only [Bool.and_eq_true, decide_eq_true_eq]
    refine ⟨⟨⟨?_, ?_⟩, hrent⟩, hmess⟩
    · rw [hpkg]
      simp
    · rw [hsrc]
      simp
  have hfl : feeLines st₂ fee =
      ((List.range 5).flatMap (fun i =>
        [hostelMonthLine fee (st₂.enrollmentDate.getD fee.dueDate) 5 i,
         messMonthLine fee (st₂.enrollmentDate.getD fee.dueDate) 5 i])) ++
      (if 0 < fee.depositAmount then [depositLine fee] else []) := by
    unfold feeLines
    rw [if_neg hskip, if_pos hexp, hpkg]
    norm_num [packageMonthsLookup]
  have hcl : completeLedger st₂ [fee] = feeLines st₂ fee := by
    unfold completeLedger
    simp [hpay, href]
  rw [hcl, hfl]
  by_cases hd : 0 < fee.depositAmount
  · rw [if_pos hd]
    refine ⟨?_, ?_, fun _ => ?_, fun hz => absurd hz (by rw [hz] at hd; exact absurd hd (by simp)),
      ?_⟩
    · simp [List.range_succ, hostelMonthLine, messMonthLine, depositLine]
    · simp [List.range_succ, hostelMonthLine, messMonthLine, depositLine]
    · simp [List.range_succ, hostelMonthLine, messMonthLine, depositLine]
    · rw [hamount]
      simp [List.range_succ, hostelMonthLine, messMonthLine, depositLine]
      ring
  · rw [if_neg hd]
    refine ⟨?_, ?_, fun hpos => absurd hpos hd, fun _ => ?_, ?_⟩
    · simp [List.range_succ, hostelMonthLine, messMonthLine]
    · simp [List.range_succ, hostelMonthLine, messMonthLine]
    · simp [List.range_succ, hostelMonthLine, messMonthLine]
    · have hz : fee.depositAmount = 0 := by
        by_contra hnz
        rcases lt_or_gt_of_ne hnz with hlt | hgt
        · have := (autoCreate_ok_spec db sid args now fid eid db' fee st hst h).2.2.2.2.2.2.1
          rw [this] at hlt
          unfold depositCharge at hlt
          split at hlt <;> norm_num [securityDepositAmount] at hlt
        · exact hd hgt
      rw [hamount, hz]
      simp [List.range_succ, hostelMonthLine, messMonthLine]
      ring

/-- C6 witness: the concrete 5-month generation for student 1 projects to 5
hostel lines, 5 mess lines, 1 deposit line, and debits summing to the total. -/
theorem roundtrip_5month_ledger_lines_witness :
    ∃ db' fee, autoCreateChecklistFee dbAlloc 1 args5m 0 60 70 = .ok (db', fee) ∧
      ((completeLedger student1 [fee]).filter
        (fun l => l.component = "Hostel (Youstel)")).length = 5 ∧
      ((completeLedger student1 [fee]).filter (fun l => l.component = "Mess (HUF)")).length = 5 ∧
      ((completeLedger student1 [fee]).filter
        (fun l => l.component = "Deposit (Youstel)")).length = 1 ∧
      ((completeLedger student1 [fee]).map LedgerLine.debit).sum = fee.amount := by
  have hs : (autoCreateChecklistFee dbAlloc 1 args5m 0 60 70).toOption.isSome = true := by decide
  cases hok : autoCreateChecklistFee dbAlloc 1 args5m 0 60 70 with
  | error e =>
      rw [hok] at hs
      exact absurd hs (by simp [Except.toOption])
  | ok p =>
      obtain ⟨dbx, feex⟩ := p
      have h := roundtrip_5month_ledger_lines dbAlloc 1 args5m 0 60 70 dbx feex
        student1 student1 rfl rfl hok
      have hdc := (autoCreate_ok_spec dbAlloc 1 args5m 0 60 70 dbx feex student1 rfl
        hok).2.2.2.2.2.2.1
      refine ⟨dbx, feex, rfl, h.1, h.2.1, ?_, h.2.2.2.2⟩
      apply h.2.2.1
      have hnet : netDepositPaid dbAlloc.ledger 1 = 0 := by
        simp [netDepositPaid, depositTaggedEntries, dbAlloc]
      have hdp : hasDepositPayment dbAlloc.ledger 1 = false := by
        unfold hasDepositPayment securityDepositAmount
        rw [hnet]
        norm_num
      have hpp : hasPaidDeposit dbAlloc.fees 1 = false := by rfl
      have hval : depositCharge dbAlloc.fees dbAlloc.ledger 1 = 10000 := by
        unfold depositCharge securityDepositAmount
        rw [hpp, hdp]
        rfl
      rw [hdc, hval]
      norm_num

/-! ## C5: payFee behaviour -/

/-- `updatePendingFees` never touches the rooms. -/
theorem updatePendingFees_rooms (db : DB) (sid : Nat) :
    (updatePendingFees db sid).rooms = db.rooms := by
  unfold updatePendingFees
  rcases findStudent db sid with _ | st <;> rfl

/-- C5 (amended): with valid inputs, `payFee` fails without touching anything
only when the fee has no associated student; otherwise — including for a fee
that is already fully settled — it re-marks the fee paid, stamps `paidDate`,
and touches the rooms only when the fee is a hostel fee carrying a bed label,
in which case the bed is allocated in the student's current room when free. -/
theorem payFee_marks_paid_and_allocates (db : DB) (feeId : Nat) (pm tid : String)
    (now : Int) (fee : Fee)
    (hpm : pm ≠ "") (htid : tid ≠ "")
    (hvalid : validPaymentMethods.contains (String.mk (pm.data.map Char.toLower)) = true)
    (hfee : db.fees.find? (fun f => f.id = feeId) = some fee) :
    (fee.student = none →
      payFee db feeId pm tid now =
        (db, .error "Fee is not associated with any student. Please contact administrator.")) ∧
    (∀ sid, fee.student = some sid → (findStudent db sid).isSome = true →
      (payFee db feeId pm tid now).2 =
        .ok { fee with
              status := "paid"
              paidDate := some now
              paymentMethod := some pm
              transactionId := some tid } ∧
      (¬(fee.feeType = "hostel" ∧ fee.bedLabel.getD "" ≠ "") →
        (payFee db feeId pm tid now).1.rooms = db.rooms) ∧
      (∀ st rid room, fee.feeType = "hostel" → fee.bedLabel.getD "" ≠ "" →
        findStudent db sid = some st → st.roomNo = some rid → findRoom db rid = some room →
        (room.beds.find? (bedAvailForLabel (fee.bedLabel.getD ""))).isSome = true →
        (payFee db feeId pm tid now).1.rooms =
          (saveRoom db (occupyBed sid (bedAvailForLabel (fee.bedLabel.getD "")) room)).rooms)) := by
  have hguard1 : ¬(pm = "" ∨ tid = "") := by
    rw [not_or]
    exact ⟨hpm, htid⟩
  have hv2 : ¬((!validPaymentMethods.contains (String.mk (pm.data.map Char.toLower))) = true) := by
    rw [hvalid]
    simp
  constructor
  · intro hnone
    unfold payFee
    rw [if_neg hguard1, if_neg hv2, hfee]
    dsimp only
    rw [hnone]
  · intro sid hsid hstud
    have hfsAll : ∀ f : Fee, findStudent (saveFee db f) sid = findStudent db sid :=
      fun _ => rfl
    have hfrAll : ∀ (f : Fee) (rid : Nat), findRoom (saveFee db f) rid = findRoom db rid :=
      fun _ _ => rfl
    unfold payFee
    rw [if_neg hguard1, if_neg hv2, hfee]
    dsimp only
    rw [hsid]
    dsimp only
    rcases hstf : findStudent db sid with _ | st0
    · rw [hstf] at hstud
      simp at hstud
    · simp only [hfsAll, hstf]
      rw [if_neg (by simp)]
      refine ⟨rfl, ?_, ?_⟩
      · intro hnot
        rw [if_neg hnot, updatePendingFees_rooms]
        rfl
      · intro st rid room hht hbl hst hrid hroom hbed
        injection hst with hst
        subst hst
        rw [if_pos ⟨hht, hbl⟩]
        dsimp only
        rw [hrid]
        dsimp only
        simp only [hfrAll]
        rw [hroom]
        dsimp only
        rcases hb : room.beds.find? (bedAvailForLabel (fee.bedLabel.getD "")) with _ | bed
        · rw [hb] at hbed
          simp at hbed
        · dsimp only
          rw [updatePendingFees_rooms]
          rfl

/-- C5 counterexample: an already fully settled fee (status `paid`) with an
associated student is not rejected: `payFee` succeeds again and re-stamps
`paidDate`, modifying the fee. -/
theorem payFee_accepts_settled_fee :
    feePaid.status = "paid" ∧ feePaid.paidDate = some 5 ∧
    (payFee dbPaid 6 "cash" "TX" 999).2.toOption =
      some { feePaid with
             status := "paid"
             paidDate := some 999
             paymentMethod := some "cash"
             transactionId := some "TX" } := by
  exact ⟨rfl, rfl, by rfl⟩

/-- C5 witness: paying the concrete fee re-marks it paid and leaves the rooms
untouched (it is not a hostel fee with a bed label). -/
theorem payFee_marks_paid_and_allocates_witness :
    (payFee dbPaid 6 "cash" "TX" 999).2 =
      .ok { feePaid with
            status := "paid"
            paidDate := some 999
            paymentMethod := some "cash"
            transactionId := some "TX" } ∧
    (payFee dbPaid 6 "cash" "TX" 999).1.rooms = dbPaid.rooms := by
  have h := payFee_marks_paid_and_allocates dbPaid 6 "cash" "TX" 999 feePaid (by decide)
    (by decide) (by decide) rfl
  have h2 := h.2 1 rfl rfl
  exact ⟨h2.1, h2.2.1 (by decide)⟩

/-! ## C1 and C4: allocation engine invariants -/

/-- A bed matched by the allocate query is free. -/
theorem bedAvailForQuery_not_occupied (q : String) (b : Bed) (h : bedAvailForQuery q b = true) :
    b.isOccupied = false := by
  unfold bedAvailForQuery at h
  rw [Bool.and_eq_true] at h
  simpa using h.2

/-- A bed matched by the label query is free. -/
theorem bedAvailForLabel_not_occupied (q : String) (b : Bed) (h : bedAvailForLabel q b = true) :
    b.isOccupied = false := by
  unfold bedAvailForLabel at h
  rw [Bool.and_eq_true] at h
  simpa using h.2

/-- Clearing splits the occupied-bed count: the cleared list plus the beds the
student held give the original count (occupancy flag tracks the holder). -/
theorem occupiedCount_clear_add (sid : Nat) (beds : List Bed)
    (h4 : ∀ b ∈ beds, b.isOccupied = b.studentId.isSome) :
    occupiedCount (clearStudentBeds sid beds) +
      (beds.filter (fun b => b.studentId = some sid)).length = occupiedCount beds := by
  induction beds with
  | nil => rfl
  | cons b t ih =>
      have iht := ih (fun x hx => h4 x (List.mem_cons_of_mem b hx))
      have h4b := h4 b (List.mem_cons_self b t)
      by_cases hb : b.studentId = some sid
      · have hocc : b.isOccupied = true := by
          rw [h4b, hb]
          rfl
        simp [clearStudentBeds, occupiedCount, List.filter_cons, hb, hocc] at iht ⊢
        omega
      · by_cases hoc : b.isOccupied = true
        · simp [clearStudentBeds, occupiedCount, List.filter_cons, hb, hoc] at iht ⊢
          omega
        · have hoc2 : b.isOccupied = false := by
            rcases hv : b.isOccupied with _ | _
            · rfl
            · exact absurd hv hoc
          simp [clearStudentBeds, occupiedCount, List.filter_cons, hb, hoc2] at iht ⊢
          omega

/-- Clearing keeps the flag-holder agreement on every bed. -/
theorem clear_occ_iff (sid : Nat) (beds : List Bed)
    (h4 : ∀ b ∈ beds, b.isOccupied = b.studentId.isSome) :
    ∀ b ∈ clearStudentBeds sid beds, b.isOccupied = b.studentId.isSome := by
  intro b hb
  rcases List.mem_map.mp hb with ⟨a, ha, rfl⟩
  by_cases hcase : a.studentId = some sid
  · rw [if_pos hcase]
    rfl
  · rw [if_neg hcase]
    exact h4 a ha

/-- After clearing, no bed belongs to the cleared student. -/
theorem clear_no_sid (sid : Nat) (beds : List Bed) :
    ∀ b ∈ clearStudentBeds sid beds, b.studentId ≠ some sid := by
  intro b hb
  rcases List.mem_map.mp hb with ⟨a, ha, rfl⟩
  by_cases hcase : a.studentId = some sid
  · rw [if_pos hcase]
    simp
  · rw [if_neg hcase]
    exact hcase

/-- Clearing one student leaves every other student's beds unchanged. -/
theorem clear_other_filter (sid s : Nat) (hne : s ≠ sid) (beds : List Bed) :
    (clearStudentBeds sid beds).filter (fun b => b.studentId = some s) =
      beds.filter (fun b => b.studentId = some s) := by
  induction beds with
  | nil => rfl
  | cons b t ih =>
      by_cases hb : b.studentId = some sid
      · have h2 : ¬(b.studentId = some s) := by
          rw [hb]
          intro hcon
          exact hne (Option.some.inj hcon).symm
        simp only [clearStudentBeds, List.map_cons, List.filter_cons, if_pos hb]
        simp only [clearStudentBeds] at ih
        simp [h2, ih]
      · by_cases hs : b.studentId = some s
        · simp only [clearStudentBeds, List.map_cons, List.filter_cons, if_neg hb]
          simp only [clearStudentBeds] at ih
          simp [hs, ih]
        · simp only [clearStudentBeds, List.map_cons, List.filter_cons, if_neg hb]
          simp only [clearStudentBeds] at ih
          simp [hs, ih]

/-- Removing an absent id is a no-op. -/
theorem filter_ne_of_not_mem (l : List Nat) (sid : Nat) (h : sid ∉ l) :
    l.filter (fun x => x ≠ sid) = l := by
  apply List.filter_eq_self.mpr
  intro a ha
  simp only [decide_eq_true_eq]
  intro heq
  exact h (heq ▸ ha)

/-- Removing a present id from a duplicate-free list drops exactly one element. -/
theorem filter_ne_length_of_mem (l : List Nat) (sid : Nat) (hnd : l.Nodup) (h : sid ∈ l) :
    (l.filter (fun x => x ≠ sid)).length + 1 = l.length := by
  induction l with
  | nil => cases h
  | cons a t ih =>
      rcases List.nodup_cons.mp hnd with ⟨hat, hndt⟩
      by_cases ha : a = sid
      · subst ha
        rw [List.filter_cons_of_neg (by simp)]
        rw [filter_ne_of_not_mem t a hat]
        simp
      · rcases List.mem_cons.mp h with h1 | h1
        · exact absurd h1.symm ha
        · rw [List.filter_cons_of_pos (by simpa using ha)]
          simp only [List.length_cons]
          rw [ih hndt h1]

/-- Under well-formedness the beds held by a student number one when the
student is listed and zero otherwise. -/
theorem bedsOf_count (r : Room) (sid : Nat) (hwf : roomWF r) :
    (r.beds.filter (fun b => b.studentId = some sid)).length =
      if sid ∈ r.students then 1 else 0 := by
  obtain ⟨-, -, -, -, h5, h6⟩ := hwf
  by_cases hm : sid ∈ r.students
  · rw [if_pos hm]
    exact h5 sid hm
  · rw [if_neg hm]
    rw [List.filter_eq_nil_iff.mpr]
    · rfl
    · intro b hb
      simp only [decide_eq_true_eq]
      intro heq
      exact hm (h6 b hb sid heq)

/-- The common release computation preserves every well-formedness field and
makes the freed student clear of the room; the occupied-bed count of the
cleared bed array equals the filtered student-list length. -/
theorem clear_core (r : Room) (sid : Nat) (hwf : roomWF r) :
    occupiedCount (clearStudentBeds sid r.beds) =
      (r.students.filter (fun x => x ≠ sid)).length ∧
    (r.students.filter (fun x => x ≠ sid)).Nodup ∧
    (∀ b ∈ clearStudentBeds sid r.beds, b.isOccupied = b.studentId.isSome) ∧
    (∀ s ∈ r.students.filter (fun x => x ≠ sid),
      ((clearStudentBeds sid r.beds).filter (fun b => b.studentId = some s)).length = 1) ∧
    (∀ b ∈ clearStudentBeds sid r.beds, ∀ s, b.studentId = some s →
      s ∈ r.students.filter (fun x => x ≠ sid)) ∧
    sid ∉ r.students.filter (fun x => x ≠ sid) ∧
    (∀ b ∈ clearStudentBeds sid r.beds, b.studentId ≠ some sid) := by
  obtain ⟨h1, h2, h3, h4, h5, h6⟩ := hwf
  have hcnt : occupiedCount (clearStudentBeds sid r.beds) =
      (r.students.filter (fun x => x ≠ sid)).length := by
    have hadd := occupiedCount_clear_add sid r.beds h4
    have hbo := bedsOf_count r sid ⟨h1, h2, h3, h4, h5, h6⟩
    by_cases hm : sid ∈ r.students
    · rw [if_pos hm] at hbo
      have hlen := filter_ne_length_of_mem r.students sid h3 hm
      omega
    · rw [if_neg hm] at hbo
      have hlen := filter_ne_of_not_mem r.students sid hm
      rw [hlen]
      omega
  refine ⟨hcnt, List.Nodup.filter _ h3, clear_occ_iff sid r.beds h4, ?_, ?_, ?_,
    clear_no_sid sid r.beds⟩
  · intro s hs
    rcases List.mem_filter.mp hs with ⟨hmem, hdec⟩
    have hne : s ≠ sid := by simpa using hdec
    rw [clear_other_filter sid s hne r.beds]
    exact h5 s hmem
  · intro b hb s hsb
    have hne : s ≠ sid := by
      intro heq
      exact clear_no_sid sid r.beds b hb (heq ▸ hsb)
    rcases List.mem_map.mp hb with ⟨a, ha, rfl⟩
    by_cases hcase : a.studentId = some sid
    · rw [if_pos hcase] at hsb
      simp at hsb
    · rw [if_neg hcase] at hsb
      apply List.mem_filter.mpr
      exact ⟨h6 a ha s hsb, by simpa using hne⟩
  · intro hmem
    rcases List.mem_filter.mp hmem with ⟨-, hdec⟩
    simp at hdec

/-- The release step of the allocate handler preserves well-formedness and
leaves the student clear of the room. -/
theorem freeForAllocate_wf (r : Room) (sid : Nat) (hwf : roomWF r) :
    roomWF (freeForAllocate sid r) ∧ studentClearOf sid (freeForAllocate sid r) := by
  obtain ⟨hcnt, hnd, hocc, hone, howner, hnm, hnsid⟩ := clear_core r sid hwf
  have hmax : max (occupiedCount (clearStudentBeds sid r.beds))
      (r.students.filter (fun x => x ≠ sid)).length =
      (r.students.filter (fun x => x ≠ sid)).length := by
    rw [hcnt]
    exact max_self _
  constructor
  · refine ⟨?_, ?_, hnd, hocc, hone, howner⟩
    · show max _ _ = occupiedCount (clearStudentBeds sid r.beds)
      rw [hmax, hcnt]
    · exact hcnt.symm ▸ rfl
  · exact ⟨hnm, hnsid⟩

/-- The release step of the deallocate / shift / checkout handlers preserves
well-formedness and leaves the student clear of the room. -/
theorem freeForDeallocate_wf (r : Room) (sid : Nat) (hwf : roomWF r) :
    roomWF (freeForDeallocate sid r) ∧ studentClearOf sid (freeForDeallocate sid r) := by
  obtain ⟨hcnt, hnd, hocc, hone, howner, hnm, hnsid⟩ := clear_core r sid hwf
  constructor
  · refine ⟨?_, ?_, hnd, hocc, hone, howner⟩
    · exact hcnt.symm
    · exact hcnt
  · exact ⟨hnm, hnsid⟩

/-- Every bed of the assigned array is either the newly occupied bed built from
an original one, or an untouched original bed. -/
theorem assign_mem_structure (sid : Nat) (p : Bed → Bool) (beds : List Bed) :
    ∀ b ∈ assignFirstBed sid p beds,
      (∃ a, a ∈ beds ∧ b = { a with isOccupied := true, studentId := some sid }) ∨
        b ∈ beds := by
  induction beds with
  | nil =>
      intro b hb
      cases hb
  | cons a t ih =>
      intro b hb
      by_cases hpa : p a = true
      · rw [assignFirstBed, if_pos hpa] at hb
        rcases List.mem_cons.mp hb with hb1 | hb1
        · exact Or.inl ⟨a, List.mem_cons_self a t, hb1⟩
        · exact Or.inr (List.mem_cons_of_mem a hb1)
      · rw [assignFirstBed, if_neg hpa] at hb
        rcases List.mem_cons.mp hb with hb1 | hb1
        · exact Or.inr (hb1 ▸ List.mem_cons_self a t)
        · rcases ih b hb1 with ⟨c, hc, hbc⟩ | hmem
          · exact Or.inl ⟨c, List.mem_cons_of_mem a hc, hbc⟩
          · exact Or.inr (List.mem_cons_of_mem a hmem)

/-- Assigning the found free bed raises the occupied-bed count by one. -/
theorem assign_count (sid : Nat) (p : Bed → Bool) (beds : List Bed) (bed : Bed)
    (hfind : beds.find? p = some bed)
    (hp : ∀ b, p b = true → b.isOccupied = false) :
    occupiedCount (assignFirstBed sid p beds) = occupiedCount beds + 1 := by
  induction beds with
  | nil => cases hfind
  | cons a t ih =>
      by_cases hpa : p a = true
      · have hna : a.isOccupied = false := hp a hpa
        rw [assignFirstBed, if_pos hpa]
        simp [occupiedCount, List.filter_cons, hna]
      · rw [List.find?_cons_of_neg _ (by simpa using hpa)] at hfind
        rw [assignFirstBed, if_neg hpa]
        by_cases hoc : a.isOccupied = true
        · simp [occupiedCount, List.filter_cons, hoc]
          have := ih hfind
          simp [occupiedCount] at this
          omega
        · have hoc2 : a.isOccupied = false := by
            rcases hv : a.isOccupied with _ | _
            · rfl
            · exact absurd hv hoc
          simp [occupiedCount, List.filter_cons, hoc2]
          have := ih hfind
          simp [occupiedCount] at this
          omega

/-- After assigning, the new occupant holds exactly one bed, provided they held
none before. -/
theorem assign_filter_sid (sid : Nat) (p : Bed → Bool) (beds : List Bed) (bed : Bed)
    (hfind : beds.find? p = some bed)
    (hnosid : ∀ b ∈ beds, b.studentId ≠ some sid) :
    ((assignFirstBed sid p beds).filter (fun b => b.studentId = some sid)).length = 1 := by
  induction beds with
  | nil => cases hfind
  | cons a t ih =>
      by_cases hpa : p a = true
      · rw [assignFirstBed, if_pos hpa]
        rw [List.filter_cons_of_pos (by simp)]
        simp only [List.length_cons]
        have : t.filter (fun b => b.studentId = some sid) = [] := by
          apply List.filter_eq_nil_iff.mpr
          intro b hb
          simpa using hnosid b (List.mem_cons_of_mem a hb)
        rw [this]
        rfl
      · rw [List.find?_cons_of_neg _ (by simpa using hpa)] at hfind
        rw [assignFirstBed, if_neg hpa]
        rw [List.filter_cons_of_neg (by simpa using hnosid a (List.mem_cons_self a t))]
        exact ih hfind (fun b hb => hnosid b (List.mem_cons_of_mem a hb))

/-- Assigning a free bed to one student leaves every other student's beds
unchanged (the assigned bed was free, hence held nobody). -/
theorem assign_filter_other (sid s : Nat) (p : Bed → Bool) (beds : List Bed)
    (hs : s ≠ sid)
    (h4 : ∀ b ∈ beds, b.isOccupied = b.studentId.isSome)
    (hp : ∀ b, p b = true → b.isOccupied = false) :
    (assignFirstBed sid p beds).filter (fun b => b.studentId = some s) =
      beds.filter (fun b => b.studentId = some s) := by
  induction beds with
  | nil => rfl
  | cons a t ih =>
      have h4t : ∀ b ∈ t, b.isOccupied = b.studentId.isSome :=
        fun b hb => h4 b (List.mem_cons_of_mem a hb)
      by_cases hpa : p a = true
      · have hnone : a.studentId = none := by
          have h1 := hp a hpa
          have h2 := h4 a (List.mem_cons_self a t)
          rw [h1] at h2
          rcases hv : a.studentId with _ | u
          · rfl
          · rw [hv] at h2
            simp at h2
        rw [assignFirstBed, if_pos hpa]
        simp only [List.filter_cons]
        have h1 : (decide (({ a with isOccupied := true, studentId := some sid } :
            Bed).studentId = some s)) = false := by
          apply decide_eq_false
          intro hcon
          exact hs (Option.some.inj hcon).symm
        have h2 : (decide (a.studentId = some s)) = false := by
          apply decide_eq_false
          rw [hnone]
          simp
        rw [h1, h2]
        simp
      · rw [assignFirstBed, if_neg hpa]
        by_cases hsa : a.studentId = some s
        · rw [List.filter_cons_of_pos (by simpa using hsa),
            List.filter_cons_of_pos (by simpa using hsa)]
          rw [ih h4t]
        · rw [List.filter_cons_of_neg (by simpa using hsa),
            List.filter_cons_of_neg (by simpa using hsa)]
          exact ih h4t

/-- Assigning keeps the flag-holder agreement on every bed. -/
theorem assign_occ_iff (sid : Nat) (p : Bed → Bool) (beds : List Bed)
    (h4 : ∀ b ∈ beds, b.isOccupied = b.studentId.isSome) :
    ∀ b ∈ assignFirstBed sid p beds, b.isOccupied = b.studentId.isSome := by
  intro b hb
  rcases assign_mem_structure sid p beds b hb with ⟨a, -, rfl⟩ | hmem
  · rfl
  · exact h4 b hmem

/-- The assignment step preserves well-formedness when the incoming student is
clear of the room and a free matching bed exists. -/
theorem occupy_wf (r : Room) (sid : Nat) (p : Bed → Bool) (bed : Bed)
    (hwf : roomWF r) (hclear : studentClearOf sid r)
    (hp : ∀ b, p b = true → b.isOccupied = false)
    (hfind : r.beds.find? p = some bed) :
    roomWF (occupyBed sid p r) := by
  obtain ⟨h1, h2, h3, h4, h5, h6⟩ := hwf
  obtain ⟨hnm, hnosid⟩ := hclear
  have hlen : r.occupied = r.students.length := h1.trans h2
  have hcnt : occupiedCount (assignFirstBed sid p r.beds) = occupiedCount r.beds + 1 :=
    assign_count sid p r.beds bed hfind hp
  unfold occupyBed
  rw [if_neg hnm]
  refine ⟨?_, ?_, ?_, ?_, ?_, ?_⟩
  · show max r.occupied (r.students ++ [sid]).length = _
    rw [List.length_append, List.length_singleton, hcnt, ← h1, hlen]
    simp [max_eq_right]
  · show occupiedCount (assignFirstBed sid p r.beds) = (r.students ++ [sid]).length
    rw [List.length_append, List.length_singleton, hcnt, h2]
  · show (r.students ++ [sid]).Nodup
    rw [List.nodup_append]
    refine ⟨h3, List.nodup_singleton _, ?_⟩
    intro a ha hmem
    rw [List.mem_singleton] at hmem
    exact hnm (hmem ▸ ha)
  · exact assign_occ_iff sid p r.beds h4
  · intro s hs
    rcases List.mem_append.mp hs with hmem | hmem
    · have hne : s ≠ sid := fun heq => hnm (heq ▸ hmem)
      rw [assign_filter_other sid s p r.beds hne h4 hp]
      exact h5 s hmem
    · rw [List.mem_singleton] at hmem
      subst hmem
      exact assign_filter_sid s p r.beds bed hfind hnosid
  · intro b hb s hsb
    rcases assign_mem_structure sid p r.beds b hb with ⟨a, -, rfl⟩ | hmem
    · have : s = sid := by
        have : some sid = some s := hsb
        exact (Option.some.inj this).symm
      subst this
      exact List.mem_append_right _ (List.mem_singleton_self s)
    · exact List.mem_append_left _ (h6 b hmem s hsb)

/-- Well-formedness gives the counting invariant of the claim. -/
theorem roomWF_consistent (r : Room) (hwf : roomWF r) : roomConsistent r :=
  ⟨hwf.1, hwf.1.trans hwf.2.1⟩

/-- Changing only the status keeps the counting invariant. -/
theorem roomConsistent_status (r : Room) (s : String) (h : roomConsistent r) :
    roomConsistent { r with status := s } := h

/-- A found room is a member of the collection. -/
theorem findRoom_mem (db : DB) (rid : Nat) (r : Room) (h : findRoom db rid = some r) :
    r ∈ db.rooms :=
  List.mem_of_find?_eq_some h

/-- A found room carries the looked-up id. -/
theorem findRoom_id (db : DB) (rid : Nat) (r : Room) (h : findRoom db rid = some r) :
    r.id = rid := by
  have := List.find?_some h
  simpa using this

/-- A failed room lookup means no room of the collection has that id. -/
theorem findRoom_none (db : DB) (rid : Nat) (h : findRoom db rid = none) :
    ∀ r ∈ db.rooms, r.id ≠ rid := by
  intro r hr
  have := List.find?_eq_none.mp h r hr
  simpa using this

/-- Membership after a room save: the saved room or an original one. -/
theorem mem_saveRoom (db : DB) (r r' : Room) (h : r' ∈ (saveRoom db r).rooms) :
    r' = r ∨ r' ∈ db.rooms := by
  unfold saveRoom at h
  rcases List.mem_map.mp h with ⟨x, hx, hfx⟩
  by_cases hid : x.id = r.id
  · rw [if_pos hid] at hfx
    exact Or.inl hfx.symm
  · rw [if_neg hid] at hfx
    exact Or.inr (hfx ▸ hx)

/-- `saveStudent` leaves the rooms untouched. -/
theorem saveStudent_rooms (db : DB) (s : Student) : (saveStudent db s).rooms = db.rooms := rfl

/-- The occupy step followed by any status rewrite keeps the counting
invariant. -/
theorem occupy_consistent_any_status (room₁ : Room) (sid : Nat) (p : Bed → Bool) (bed : Bed)
    (hwf : roomWF room₁) (hclear : studentClearOf sid room₁)
    (hp : ∀ b, p b = true → b.isOccupied = false)
    (hfind : room₁.beds.find? p = some bed) :
    roomConsistent (occupyBed sid p room₁) ∧
    ∀ s, roomConsistent { occupyBed sid p room₁ with status := s } := by
  have h := roomWF_consistent _ (occupy_wf room₁ sid p bed hwf hclear hp hfind)
  exact ⟨h, fun s => roomConsistent_status _ s h⟩

/-- `allocateRoom` preserves the occupancy invariant of every room, given the
data-model invariants on the initial state. -/
theorem allocateRoom_preserves (db : DB) (sid : Nat) (st : Student) (roomId : Nat)
    (bedLabel : String) (now : Int) (db' : DB) (lbl : String)
    (hst : findStudent db sid = some st)
    (hwf : ∀ r ∈ db.rooms, roomWF r)
    (hhome : ∀ r ∈ db.rooms, st.roomNo = some r.id ∨ studentClearOf sid r)
    (h : allocateRoom db roomId sid bedLabel now = .ok (db', lbl)) :
    ∀ r ∈ db'.rooms, roomConsistent r := by
  have hp := bedAvailForQuery_not_occupied bedLabel
  unfold allocateRoom at h
  by_cases hbl : bedLabel = ""
  · rw [if_pos hbl] at h
    exact Except.noConfusion h
  rw [if_neg hbl] at h
  cases hr0 : findRoom db roomId with
  | none =>
      rw [hr0] at h
      exact Except.noConfusion h
  | some room₀ =>
  rw [hr0] at h
  dsimp only at h
  rw [hst] at h
  dsimp only at h
  have hmem₀ := findRoom_mem db roomId room₀ hr0
  have hid₀ := findRoom_id db roomId room₀ hr0
  have hwf₀ := hwf room₀ hmem₀
  -- the generic tail: once the working pair is known, finish
  have tail : ∀ (db₁ : DB) (room₁ : Room),
      roomWF room₁ → studentClearOf sid room₁ → (∀ r ∈ db₁.rooms, roomConsistent r) →
      ∀ bed, room₁.beds.find? (bedAvailForQuery bedLabel) = some bed →
      ∀ r ∈ (saveStudent (saveRoom db₁
        (if (occupyBed sid (bedAvailForQuery bedLabel) room₁).occupied ≥
            (occupyBed sid (bedAvailForQuery bedLabel) room₁).capacity then
          { occupyBed sid (bedAvailForQuery bedLabel) room₁ with status := "occupied" }
        else occupyBed sid (bedAvailForQuery bedLabel) room₁))
        { st with roomNo := some roomId, allocationDate := some now }).rooms,
        roomConsistent r := by
    intro db₁ room₁ hwf₁ hclear₁ hrest bed hfind r' hr'
    rw [saveStudent_rooms] at hr'
    rcases mem_saveRoom _ _ _ hr' with rfl | hm
    · have hc := occupy_consistent_any_status room₁ sid (bedAvailForQuery bedLabel) bed
        hwf₁ hclear₁ hp hfind
      by_cases hcap : (occupyBed sid (bedAvailForQuery bedLabel) room₁).occupied ≥
          (occupyBed sid (bedAvailForQuery bedLabel) room₁).capacity
      · rw [if_pos hcap]
        exact hc.2 "occupied"
      · rw [if_neg hcap]
        exact hc.1
    · exact hrest r' hm
  cases hprev : st.roomNo with
  | none =>
      rw [hprev] at h
      dsimp only at h
      have hclear₀ : studentClearOf sid room₀ := by
        rcases hhome room₀ hmem₀ with hcon | hc
        · rw [hprev] at hcon
          exact Option.noConfusion hcon
        · exact hc
      split at h
      · exact Except.noConfusion h
      · cases hfindb : room₀.beds.find? (bedAvailForQuery bedLabel) with
        | none =>
            rw [hfindb] at h
            exact Except.noConfusion h
        | some bed =>
            rw [hfindb] at h
            dsimp only at h
            injection h with h
            injection h with h1 h2
            subst h1
            exact tail db room₀ hwf₀ hclear₀ (fun r hr => roomWF_consistent r (hwf r hr))
              bed hfindb
  | some prevId =>
      rw [hprev] at h
      dsimp only at h
      cases hfr : findRoom db prevId with
      | none =>
          rw [hfr] at h
          dsimp only at h
          have hclear₀ : studentClearOf sid room₀ := by
            rcases hhome room₀ hmem₀ with hcon | hc
            · rw [hprev] at hcon
              have : room₀.id ≠ prevId := findRoom_none db prevId hfr room₀ hmem₀
              exact absurd (Option.some.inj hcon).symm this
            · exact hc
          split at h
          · exact Except.noConfusion h
          · cases hfindb : room₀.beds.find? (bedAvailForQuery bedLabel) with
            | none =>
                rw [hfindb] at h
                exact Except.noConfusion h
            | some bed =>
                rw [hfindb] at h
                dsimp only at h
                injection h with h
                injection h with h1 h2
                subst h1
                exact tail db room₀ hwf₀ hclear₀
                  (fun r hr => roomWF_consistent r (hwf r hr)) bed hfindb
      | some prev =>
          rw [hfr] at h
          dsimp only at h
          have hmemp := findRoom_mem db prevId prev hfr
          have hidp := findRoom_id db prevId prev hfr
          obtain ⟨hwfF, hclearF⟩ := freeForAllocate_wf prev sid (hwf prev hmemp)
          have hrest₁ : ∀ r ∈ (saveRoom db (freeForAllocate sid prev)).rooms,
              roomConsistent r := by
            intro r hr
            rcases mem_saveRoom _ _ _ hr with rfl | hm
            · exact roomWF_consistent _ hwfF
            · exact roomWF_consistent r (hwf r hm)
          by_cases hpid : prev.id = roomId
          · rw [if_pos hpid] at h
            split at h
            · exact Except.noConfusion h
            · cases hfindb : (freeForAllocate sid prev).beds.find? (bedAvailForQuery bedLabel)
                with
              | none =>
                  rw [hfindb] at h
                  exact Except.noConfusion h
              | some bed =>
                  rw [hfindb] at h
                  dsimp only at h
                  injection h with h
                  injection h with h1 h2
                  subst h1
                  exact tail (saveRoom db (freeForAllocate sid prev)) (freeForAllocate sid prev)
                    hwfF hclearF hrest₁ bed hfindb
          · rw [if_neg hpid] at h
            have hclear₀ : studentClearOf sid room₀ := by
              rcases hhome room₀ hmem₀ with hcon | hc
              · rw [hprev] at hcon
                have : prevId = room₀.id := Option.some.inj hcon
                rw [hid₀] at this
                rw [hidp] at hpid
                exact absurd this hpid
              · exact hc
            split at h
            · exact Except.noConfusion h
            · cases hfindb : room₀.beds.find? (bedAvailForQuery bedLabel) with
              | none =>
                  rw [hfindb] at h
                  exact Except.noConfusion h
              | some bed =>
                  rw [hfindb] at h
                  dsimp only at h
                  injection h with h
                  injection h with h1 h2
                  subst h1
                  exact tail (saveRoom db (freeForAllocate sid prev)) room₀ hwf₀ hclear₀
                    hrest₁ bed hfindb

/-- `deallocateRoom` preserves the occupancy invariant of every room. -/
theorem deallocateRoom_preserves (db : DB) (sid roomId : Nat) (db' : DB)
    (hwf : ∀ r ∈ db.rooms, roomWF r)
    (h : deallocateRoom db roomId sid = .ok db') :
    ∀ r ∈ db'.rooms, roomConsistent r := by
  unfold deallocateRoom at h
  cases hr0 : findRoom db roomId with
  | none =>
      rw [hr0] at h
      exact Except.noConfusion h
  | some room =>
  rw [hr0] at h
  dsimp only at h
  cases hstf : findStudent db sid with
  | none =>
      rw [hstf] at h
      exact Except.noConfusion h
  | some st =>
  rw [hstf] at h
  dsimp only at h
  injection h with h
  subst h
  intro r hr
  rw [saveStudent_rooms] at hr
  rcases mem_saveRoom _ _ _ hr with rfl | hm
  · exact roomWF_consistent _
      (freeForDeallocate_wf room sid (hwf room (findRoom_mem db roomId room hr0))).1
  · exact roomWF_consistent r (hwf r hm)

/-- `shiftRoom` preserves the occupancy invariant of every room, given the
data-model invariants on the initial state. -/
theorem shiftRoom_preserves (db : DB) (sid : Nat) (st : Student) (newRoomId : Nat)
    (bedLabel : String) (now : Int) (db' : DB)
    (hst : findStudent db sid = some st)
    (hwf : ∀ r ∈ db.rooms, roomWF r)
    (hhome : ∀ r ∈ db.rooms, st.roomNo = some r.id ∨ studentClearOf sid r)
    (h : shiftRoom db sid newRoomId bedLabel now = .ok db') :
    ∀ r ∈ db'.rooms, roomConsistent r := by
  have hp := bedAvailForLabel_not_occupied bedLabel
  unfold shiftRoom at h
  by_cases hbl : bedLabel = ""
  · rw [if_pos hbl] at h
    exact Except.noConfusion h
  rw [if_neg hbl] at h
  split at h
  · exact Except.noConfusion h
  rw [hst] at h
  dsimp only at h
  cases hprev : st.roomNo with
  | none =>
      rw [hprev] at h
      exact Except.noConfusion h
  | some oldRoomId =>
  rw [hprev] at h
  dsimp only at h
  cases hfo : findRoom db oldRoomId with
  | none =>
      rw [hfo] at h
      exact Except.noConfusion h
  | some oldRoom =>
  rw [hfo] at h
  dsimp only at h
  cases hfn : findRoom db newRoomId with
  | none =>
      rw [hfn] at h
      exact Except.noConfusion h
  | some newRoom =>
  rw [hfn] at h
  dsimp only at h
  by_cases hcap : newRoom.occupied ≥ newRoom.capacity
  · rw [if_pos hcap] at h
    exact Except.noConfusion h
  rw [if_neg hcap] at h
  cases hfindb : newRoom.beds.find? (bedAvailForLabel bedLabel) with
  | none =>
      rw [hfindb] at h
      simp only [Option.isNone_none] at h
      exact Except.noConfusion h
  | some bed =>
  rw [hfindb] at h
  simp only [Option.isNone_some] at h
  rw [if_neg (by simp)] at h
  by_cases hsame : oldRoomId = newRoomId
  · rw [if_pos hsame] at h
    exact Except.noConfusion h
  rw [if_neg hsame] at h
  injection h with h
  subst h
  have hmemn := findRoom_mem db newRoomId newRoom hfn
  have hidn := findRoom_id db newRoomId newRoom hfn
  have hclearn : studentClearOf sid newRoom := by
    rcases hhome newRoom hmemn with hcon | hc
    · rw [hprev] at hcon
      have : oldRoomId = newRoom.id := Option.some.inj hcon
      rw [hidn] at this
      exact absurd this hsame
    · exact hc
  have hwfn := hwf newRoom hmemn
  have hoccn := occupy_consistent_any_status newRoom sid (bedAvailForLabel bedLabel) bed
    hwfn hclearn hp hfindb
  intro r hr
  rw [saveStudent_rooms] at hr
  rcases mem_saveRoom _ _ _ hr with rfl | hm
  · by_cases hc1 : (occupyBed sid (bedAvailForLabel bedLabel) newRoom).occupied ≥
        (occupyBed sid (bedAvailForLabel bedLabel) newRoom).capacity
    · rw [if_pos hc1]
      exact hoccn.2 "occupied"
    · rw [if_neg hc1]
      by_cases hc2 : 0 < (occupyBed sid (bedAvailForLabel bedLabel) newRoom).occupied
      · rw [if_pos hc2]
        exact hoccn.2 _
      · rw [if_neg hc2]
        exact hoccn.1
  · rcases mem_saveRoom _ _ _ hm with rfl | hm2
    · exact roomWF_consistent _
        (freeForDeallocate_wf oldRoom sid (hwf oldRoom (findRoom_mem db oldRoomId
          oldRoom hfo))).1
    · exact roomWF_consistent r (hwf r hm2)

/-- C1: under the data-model invariants, after any Allocation Engine operation
(`allocateRoom`, `deallocateRoom`, `shiftRoom`) completes with all writes
succeeding, every room satisfies `occupied = occupied-bed count =
students-array length`. -/
theorem allocation_engine_preserves_occupancy_invariant (db : DB) (sid : Nat) (st : Student)
    (hst : findStudent db sid = some st)
    (hwf : ∀ r ∈ db.rooms, roomWF r)
    (hhome : ∀ r ∈ db.rooms, st.roomNo = some r.id ∨ studentClearOf sid r) :
    (∀ roomId bedLabel now db' lbl,
      allocateRoom db roomId sid bedLabel now = .ok (db', lbl) →
      ∀ r ∈ db'.rooms, roomConsistent r) ∧
    (∀ roomId db', deallocateRoom db roomId sid = .ok db' →
      ∀ r ∈ db'.rooms, roomConsistent r) ∧
    (∀ newRoomId bedLabel now db',
      shiftRoom db sid newRoomId bedLabel now = .ok db' →
      ∀ r ∈ db'.rooms, roomConsistent r) := by
  refine ⟨?_, ?_, ?_⟩
  · intro roomId bedLabel now db' lbl h
    exact allocateRoom_preserves db sid st roomId bedLabel now db' lbl hst hwf hhome h
  · intro roomId db' h
    exact deallocateRoom_preserves db sid roomId db' hwf h
  · intro newRoomId bedLabel now db' h
    exact shiftRoom_preserves db sid st newRoomId bedLabel now db' hst hwf hhome h

/-- C1 witness: moving student 1 from room 1 to room 2 in the concrete store
succeeds and every room of the result satisfies the counting invariant. -/
theorem allocation_engine_invariant_witness :
    ∃ db' lbl, allocateRoom dbAlloc 2 1 "A" 0 = .ok (db', lbl) ∧
      ∀ r ∈ db'.rooms, roomConsistent r := by
  have hs : (allocateRoom dbAlloc 2 1 "A" 0).toOption.isSome = true := by decide
  cases hok : allocateRoom dbAlloc 2 1 "A" 0 with
  | error e =>
      rw [hok] at hs
      exact absurd hs (by simp [Except.toOption])
  | ok p =>
      obtain ⟨dbx, lblx⟩ := p
      refine ⟨dbx, lblx, rfl, ?_⟩
      have hwfc : ∀ r ∈ dbAlloc.rooms, roomWF r := by
        intro r hr
        fin_cases hr <;> (unfold roomWF; decide)
      have hhomec : ∀ r ∈ dbAlloc.rooms, student1.roomNo = some r.id ∨ studentClearOf 1 r := by
        intro r hr
        fin_cases hr
        · left
          rfl
        · right
          unfold studentClearOf
          decide
      exact (allocation_engine_preserves_occupancy_invariant dbAlloc 1 student1 rfl
        hwfc hhomec).1 2 "A" 0 dbx lblx hok

/-- C4 (amended): for a student with no current room, `allocateRoom` fails when
the target room is at capacity or the requested bed is unavailable, performing
no write; a student who already holds a room is not rejected — their previous
bed is released first (see the counterexample). -/
theorem allocateRoom_rejects_full_or_taken (db : DB) (roomId sid : Nat) (bedLabel : String)
    (now : Int) (room : Room) (st : Student)
    (hroom : findRoom db roomId = some room)
    (hst : findStudent db sid = some st)
    (hnoroom : st.roomNo = none)
    (hbl : bedLabel ≠ "") :
    (room.occupied ≥ room.capacity →
      allocateRoom db roomId sid bedLabel now = .error "Room is full") ∧
    (room.beds.find? (bedAvailForQuery bedLabel) = none →
      allocateRoom db roomId sid bedLabel now = .error "Room is full" ∨
      allocateRoom db roomId sid bedLabel now = .error "Bed is not available") := by
  unfold allocateRoom
  rw [if_neg hbl, hroom]
  dsimp only
  rw [hst]
  dsimp only
  rw [hnoroom]
  dsimp only
  constructor
  · intro hcap
    rw [if_pos ⟨hcap, Or.inl rfl⟩]
  · intro hbed
    by_cases hcap : room.occupied ≥ room.capacity
    · left
      rw [if_pos ⟨hcap, Or.inl rfl⟩]
    · right
      rw [if_neg (by rintro ⟨h1, -⟩; exact hcap h1), hbed]

/-- C4 witness: the full single room rejects a roomless student with the
room-full error. -/
theorem allocateRoom_rejects_witness :
    allocateRoom dbFull 3 2 "A" 0 = .error "Room is full" := by
  exact (allocateRoom_rejects_full_or_taken dbFull 3 2 "A" 0 roomFull student2 rfl rfl rfl
    (by decide)).1 (by decide)

/-- C4 counterexample: a student who already has a current room (student 1
lives in room 1) is not rejected: allocation into room 2 succeeds and assigns
bed A there. -/
theorem allocateRoom_rehouses_housed_student :
    student1.roomNo = some 1 ∧
    (allocateRoom dbAlloc 2 1 "A" 0).toOption.map (fun p => p.2) = some "A" := by
  exact ⟨rfl, by rfl⟩
